import Mathlib

/-!
# I2S helpers (`i2sHelpers.c` / `i2sHelpers.h`)

A shallow embedding of the loopback self-test (generator `prepare_tx_data`,
validator `check_samples` / `check_rx_data`), of the double-buffer notification
handler `i2s_data_handler`, of the transfer session `i2s_transfer`, and of the
WS2812B frame encoder (`FillI2SDriverBuffer` / `neopixelWrite`).

Machine integers are natural numbers; every C conversion to a fixed-width
unsigned type is an explicit reduction (`u8`, `u16`, `u32`).  Memory that the C
code reaches through a pointer is a function from an index to the stored value.
-/

namespace I2sHelpers

/-! ## Integer conversions -/

/-- Conversion of a C `int` value to `uint8_t`. -/
def u8 (x : Int) : Nat := (x % 256).toNat

/-- Conversion of a C `int` value to `uint16_t`. -/
def u16 (x : Int) : Nat := (x % 65536).toNat

/-- Conversion of an unsigned value to `uint32_t`. -/
def u32 (x : Nat) : Nat := x % 4294967296

/-! ## Constants of `i2sHelpers.h` -/

def I2S_DATA_BLOCK_WORDS : Nat := 512

def BLOCKS_TO_TRANSFER : Nat := 20

def RESET_BITS : Nat := 6

def I2S_WS2812B_DRIVE_PATTERN_0 : Nat := 0x08

def I2S_WS2812B_DRIVE_PATTERN_1 : Nat := 0x0e

def I2S_WS2812B_DRIVE_BUF_SIZE_PER_LED : Nat := 12

/-- The null pointer. -/
def NULL : Nat := 0

/-- The driver's success code. -/
def NRF_SUCCESS : Nat := 0

/-! ## Self-test: streaming state -/

/-- The pair of buffers exchanged with the I2S driver (addresses, `NULL` is 0). -/
structure nrf_drv_i2s_buffers_t where
  p_rx_buffer : Nat
  p_tx_buffer : Nat
deriving DecidableEq, Repr

/-- Observable actions of the notification handler, in program order: the call
of `nrf_drv_i2s_next_buffers_set` and the stores to the two pending-block
pointers. -/
inductive Action where
  | next_buffers_set (b : nrf_drv_i2s_buffers_t)
  | store_block_to_check (p : Nat)
  | store_block_to_fill (p : Nat)
deriving DecidableEq, Repr

/-- The module-level variables of the self-test (`i2sHelpers.h`, lines 48-55),
with `actions` a ghost log of what the notification handler did. -/
structure State where
  m_blocks_transferred : Nat
  m_zero_samples_to_ignore : Nat
  m_sample_value_to_send : Nat
  m_sample_value_expected : Nat
  m_error_encountered : Bool
  mp_block_to_fill : Nat
  mp_block_to_check : Nat
  actions : List Action
deriving DecidableEq, Repr

/-- A transfer block: the 32-bit word stored at each word index. -/
abbrev Block := Nat → Nat

/-- Half-word store `((uint16_t *)p_word)[0] = v` (little-endian target). -/
def store_half0 (w v : Nat) : Nat := w / 65536 % 65536 * 65536 + v % 65536

/-- Half-word store `((uint16_t *)p_word)[1] = v` (little-endian target). -/
def store_half1 (w v : Nat) : Nat := v % 65536 * 65536 + w % 65536

/-- Half-word load `((uint16_t const *)p_word)[0]`. -/
def load_half0 (w : Nat) : Nat := w % 65536

/-- Half-word load `((uint16_t const *)p_word)[1]`. -/
def load_half1 (w : Nat) : Nat := w / 65536 % 65536

/-- The `for` loop of `prepare_tx_data`: `n` iterations left, loop index `i`. -/
def prepare_tx_loop : Nat → Nat → State → Block → State × Block
  | 0, _, s, p_block => (s, p_block)
  | n + 1, i, s, p_block =>
    let sample_l := u16 ((s.m_sample_value_to_send : Int) - 1)
    let sample_r := u16 ((s.m_sample_value_to_send : Int) + 1)
    let s1 := { s with m_sample_value_to_send := u16 ((s.m_sample_value_to_send : Int) + 1) }
    let w0 := store_half0 (p_block i) sample_l
    let w1 := store_half1 w0 sample_r
    prepare_tx_loop n (i + 1) s1 (Function.update p_block i w1)

/-- The function `prepare_tx_data` (lines 40-67). -/
def prepare_tx_data (s : State) (p_block : Block) : State × Block :=
  let s0 :=
    if s.m_blocks_transferred = 0 ∧ s.m_zero_samples_to_ignore = 0 then
      { s with
        m_zero_samples_to_ignore := 2
        m_sample_value_to_send := 0xCAFE
        m_sample_value_expected := 0xCAFE
        m_error_encountered := false }
    else s
  prepare_tx_loop I2S_DATA_BLOCK_WORDS 0 s0 p_block

/-- The `for` loop of `check_samples`: `n` iterations left, loop index `i`;
the result is the returned flag and the state at the return. -/
def check_samples_loop : Nat → Nat → State → Block → Bool × State
  | 0, _, s, _ => (true, s)
  | n + 1, i, s, p_block =>
    let actual_sample_l := load_half0 (p_block i)
    let actual_sample_r := load_half1 (p_block i)
    if s.m_zero_samples_to_ignore > 0 ∧ actual_sample_l = 0 ∧ actual_sample_r = 0 then
      check_samples_loop n (i + 1)
        { s with m_zero_samples_to_ignore := u8 ((s.m_zero_samples_to_ignore : Int) - 1) }
        p_block
    else
      let expected_sample_l := u16 ((s.m_sample_value_expected : Int) - 1)
      let expected_sample_r := u16 ((s.m_sample_value_expected : Int) + 1)
      let s1 := { s with
        m_zero_samples_to_ignore := 0
        m_sample_value_expected := u16 ((s.m_sample_value_expected : Int) + 1) }
      if actual_sample_l ≠ expected_sample_l ∨ actual_sample_r ≠ expected_sample_r then
        (false, s1)
      else
        check_samples_loop n (i + 1) s1 p_block

/-- The function `check_samples` (lines 70-110). -/
def check_samples (s : State) (p_block : Block) : Bool × State :=
  check_samples_loop I2S_DATA_BLOCK_WORDS 0 s p_block

/-- The function `check_rx_data` (lines 113-132); the LED calls are outside the
state. -/
def check_rx_data (s : State) (p_block : Block) : State :=
  let s1 := { s with m_blocks_transferred := u8 ((s.m_blocks_transferred : Int) + 1) }
  if !s1.m_error_encountered then
    let r := check_samples s1 p_block
    { r.2 with m_error_encountered := !r.1 }
  else s1

/-! ## Self-test: notification handler -/

/-- What the handler takes from the SDK and the linker: the status bit mask
`NRFX_I2S_STATUS_NEXT_BUFFERS_NEEDED`, the addresses of `m_buffer_rx[k]` and
`m_buffer_tx[k]`, and the code `nrf_drv_i2s_next_buffers_set` returns for a
given pair of buffers. -/
structure Driver where
  NRFX_I2S_STATUS_NEXT_BUFFERS_NEEDED : Nat
  m_buffer_rx : Nat → Nat
  m_buffer_tx : Nat → Nat
  nrf_drv_i2s_next_buffers_set : nrf_drv_i2s_buffers_t → Nat

/-- The function `i2s_data_handler` (lines 135-179).  `p_released` is `none`
for a null pointer; the result is `none` when the handler does not return
(`ASSERT` fails, or `APP_ERROR_CHECK` sees a code other than `NRF_SUCCESS`). -/
def i2s_data_handler (d : Driver) (p_released : Option nrf_drv_i2s_buffers_t)
    (status : Nat) (s : State) : Option State :=
  match p_released with
  | none => none
  | some released =>
    if status &&& d.NRFX_I2S_STATUS_NEXT_BUFFERS_NEEDED = 0 then
      some s
    else if released.p_rx_buffer = NULL then
      let next_buffers : nrf_drv_i2s_buffers_t :=
        { p_rx_buffer := d.m_buffer_rx 1, p_tx_buffer := d.m_buffer_tx 1 }
      if d.nrf_drv_i2s_next_buffers_set next_buffers ≠ NRF_SUCCESS then none
      else
        some { s with
          mp_block_to_fill := d.m_buffer_tx 1
          actions := s.actions ++
            [Action.next_buffers_set next_buffers, Action.store_block_to_fill (d.m_buffer_tx 1)] }
    else
      if d.nrf_drv_i2s_next_buffers_set released ≠ NRF_SUCCESS then none
      else
        some { s with
          mp_block_to_check := released.p_rx_buffer
          mp_block_to_fill := released.p_tx_buffer
          actions := s.actions ++
            [Action.store_block_to_check released.p_rx_buffer,
             Action.next_buffers_set released,
             Action.store_block_to_fill released.p_tx_buffer] }

/-- A scripted run: the notifications are delivered to the handler one after
the other, each as a released pair and a status word. -/
def run_notifications (d : Driver) :
    List (nrf_drv_i2s_buffers_t × Nat) → State → Option State
  | [], s => some s
  | (released, status) :: rest, s =>
    match i2s_data_handler d (some released) status s with
    | none => none
    | some s1 => run_notifications d rest s1

/-! ## LED drive: frame encoder -/

/-- One pixel, three `uint8_t` channels (`i2sHelpers.h`, lines 66-71). -/
structure LEDDRIVERPIXEL where
  r : Nat
  g : Nat
  b : Nat
deriving DecidableEq, Repr

/-- The call `nrf_drv_i2s_start(&buffers, buffer_size, flags)` as the driver
sees it. -/
structure StartCall where
  buffers : nrf_drv_i2s_buffers_t
  buffer_size : Nat
  flags : Nat
deriving DecidableEq, Repr

/-- The module-level variables of the LED pipeline (`i2sHelpers.h`, lines
73-77).  `pixels k` is the pixel `m_pPixels[k]`, `tx_bytes x` the byte at
`(uint8_t *)m_pTXBuffer + x`; `tx_stores` is a ghost log of the byte offsets
the encoder stored to, and `started` the last `nrf_drv_i2s_start` call. -/
structure LedState where
  m_pPixels : Nat
  pixels : Nat → LEDDRIVERPIXEL
  m_pTXBuffer : Nat
  tx_bytes : Int → Nat
  m_numPixels : Nat
  m_brightness : Nat
  m_i2sBufferSize : Nat
  tx_stores : List Int
  started : Option StartCall

/-- The value of `rgb` computed at line 339 for one pixel. -/
def pixel_rgb (p : LEDDRIVERPIXEL) (m_brightness : Nat) : Nat :=
  u32 ((((p.g * m_brightness) >>> 8) <<< 16) ||| (((p.r * m_brightness) >>> 8) <<< 8)
    ||| ((p.b * m_brightness) >>> 8))

/-- The byte stored by the `switch` of lines 342-356 for the current `rgb`. -/
def switch_byte (rgb : Nat) : Nat :=
  if rgb &&& 0x00c00000 = 0x00400000 then
    ((I2S_WS2812B_DRIVE_PATTERN_0 <<< 4) ||| I2S_WS2812B_DRIVE_PATTERN_1) % 256
  else if rgb &&& 0x00c00000 = 0x00800000 then
    ((I2S_WS2812B_DRIVE_PATTERN_1 <<< 4) ||| I2S_WS2812B_DRIVE_PATTERN_0) % 256
  else if rgb &&& 0x00c00000 = 0x00c00000 then
    ((I2S_WS2812B_DRIVE_PATTERN_1 <<< 4) ||| I2S_WS2812B_DRIVE_PATTERN_1) % 256
  else
    ((I2S_WS2812B_DRIVE_PATTERN_0 <<< 4) ||| I2S_WS2812B_DRIVE_PATTERN_0) % 256

/-- The local variables of `FillI2SDriverBuffer` together with the memory it
stores to: `pTX` is the byte offset of the moving pointer from `m_pTXBuffer`. -/
structure FillLocals where
  rgb : Nat
  pTX : Int
  offset : Int
  tx_bytes : Int → Nat
  tx_stores : List Int

/-- The inner `for` loop (lines 340-360), `n` iterations left. -/
def fill_inner : Nat → FillLocals → FillLocals
  | 0, c => c
  | n + 1, c =>
    fill_inner n
      { rgb := u32 (c.rgb <<< (24 / I2S_WS2812B_DRIVE_BUF_SIZE_PER_LED))
        pTX := c.pTX + 1
        offset := -c.offset
        tx_bytes := Function.update c.tx_bytes (c.pTX + c.offset) (switch_byte c.rgb)
        tx_stores := c.tx_stores ++ [c.pTX + c.offset] }

/-- The outer `for` loop (lines 337-362), `n` iterations left, `pPixel` the
index of the current pixel. -/
def fill_outer (pixels : Nat → LEDDRIVERPIXEL) (m_brightness : Nat) :
    Nat → Nat → FillLocals → FillLocals
  | 0, _, c => c
  | n + 1, pPixel, c =>
    fill_outer pixels m_brightness n (pPixel + 1)
      (fill_inner I2S_WS2812B_DRIVE_BUF_SIZE_PER_LED
        { c with rgb := pixel_rgb (pixels pPixel) m_brightness })

/-- The function `FillI2SDriverBuffer` (lines 331-363). -/
def FillI2SDriverBuffer (s : LedState) : LedState :=
  let c := fill_outer s.pixels s.m_brightness s.m_numPixels 0
    { rgb := 0, pTX := 0, offset := 1, tx_bytes := s.tx_bytes, tx_stores := s.tx_stores }
  { s with tx_bytes := c.tx_bytes, tx_stores := c.tx_stores }

/-- The function `neopixelWrite` (lines 365-377). -/
def neopixelWrite (s : LedState) : LedState :=
  let s1 := { s with m_i2sBufferSize := u16 (3 * (s.m_numPixels : Int) + (RESET_BITS : Int)) }
  let s2 := FillI2SDriverBuffer s1
  let buffers : nrf_drv_i2s_buffers_t := { p_rx_buffer := NULL, p_tx_buffer := s2.m_pTXBuffer }
  { s2 with started := some { buffers := buffers, buffer_size := s2.m_i2sBufferSize, flags := 0 } }

/-- The size of a `uint32_t` in bytes. -/
def sizeof_uint32_t : Nat := 4

/-- The length in bytes of the frame handed to the driver: `buffer_size`
32-bit words, the unit in which `i2s_init` allocates the buffer (line 193). -/
def frame_length (s : LedState) : Nat :=
  match s.started with
  | none => 0
  | some c => sizeof_uint32_t * c.buffer_size

/-- The frame handed to the driver, byte by byte. -/
def frame (s : LedState) : List Nat :=
  (List.range (frame_length s)).map (fun x => s.tx_bytes (x : Int))

/-- The part of `i2s_init` (lines 188-213) that touches the LED variables:
`malloc` returns the address `addr` of a block whose bytes `fresh` are
whatever the heap held, and the first pixel is set to the test colour.  The
result is `none` when `APP_ERROR_CHECK` sees a code other than `NRF_SUCCESS`
from `nrf_drv_i2s_init`. -/
def i2s_init (addr : Nat) (fresh : Int → Nat) (err_code : Nat) (s : LedState) :
    Option LedState :=
  let s1 := { s with m_pTXBuffer := addr, tx_bytes := fresh }
  let p0 := s1.pixels 0
  let p1 := { p0 with r := 0xFF }
  let p2 := { p1 with g := 0xC0 }
  let p3 := { p2 with b := 0xCB }
  let s2 := { s1 with pixels := Function.update s1.pixels 0 p3 }
  if err_code ≠ NRF_SUCCESS then none else some s2

/-- The pairs passed to `nrf_drv_i2s_next_buffers_set`, in call order. -/
def submitted (s : State) : List nrf_drv_i2s_buffers_t :=
  s.actions.filterMap (fun a =>
    match a with
    | Action.next_buffers_set b => some b
    | _ => none)

/-- The values stored to `mp_block_to_fill` by the handler, in order. -/
def fill_stores (s : State) : List Nat :=
  s.actions.filterMap (fun a =>
    match a with
    | Action.store_block_to_fill p => some p
    | _ => none)

/-- The values stored to `mp_block_to_check` by the handler, in order. -/
def check_stores (s : State) : List Nat :=
  s.actions.filterMap (fun a =>
    match a with
    | Action.store_block_to_check p => some p
    | _ => none)

/-- The drive symbol of one data bit, as the header documents the two
patterns: `HLLL` for a 0 bit, `HHHL` for a 1 bit. -/
def drive_symbol (bit : Bool) : Nat :=
  if bit then I2S_WS2812B_DRIVE_PATTERN_1 else I2S_WS2812B_DRIVE_PATTERN_0

/-- The value of `rgb` after `k` executions of line 359. -/
def rgb_after (rgb : Nat) : Nat → Nat
  | 0 => rgb
  | k + 1 => u32 (rgb_after rgb k <<< (24 / I2S_WS2812B_DRIVE_BUF_SIZE_PER_LED))

/-- The inner-loop step that stores to byte `j` of a pixel's 12 bytes: the
stores alternate between offset `+1` and `-1`. -/
def step_of_byte (j : Nat) : Nat := if j % 2 = 0 then j + 1 else j - 1

/-! ## Sample inputs -/

/-- A driver environment: status bit 0, the four blocks at distinct addresses,
every submission accepted. -/
def sample_driver : Driver :=
  { NRFX_I2S_STATUS_NEXT_BUFFERS_NEEDED := 1
    m_buffer_rx := fun k => 0x20001000 + 0x800 * k
    m_buffer_tx := fun k => 0x20002000 + 0x800 * k
    nrf_drv_i2s_next_buffers_set := fun _ => NRF_SUCCESS }

/-- Block pair 0 of `sample_driver`. -/
def pair_A : nrf_drv_i2s_buffers_t :=
  { p_rx_buffer := sample_driver.m_buffer_rx 0, p_tx_buffer := sample_driver.m_buffer_tx 0 }

/-- Block pair 1 of `sample_driver`. -/
def pair_B : nrf_drv_i2s_buffers_t :=
  { p_rx_buffer := sample_driver.m_buffer_rx 1, p_tx_buffer := sample_driver.m_buffer_tx 1 }

/-- The released pair of the first notification of a session: the initial
transmit block, no receive block yet. -/
def pair_first : nrf_drv_i2s_buffers_t :=
  { p_rx_buffer := NULL, p_tx_buffer := sample_driver.m_buffer_tx 0 }

/-- A script of `n` notifications releasing `A, B, A, B, ...`, all with the
same status word. -/
def alternating_script (A B : nrf_drv_i2s_buffers_t) (status : Nat) :
    Nat → List (nrf_drv_i2s_buffers_t × Nat)
  | 0 => []
  | n + 1 => (A, status) :: alternating_script B A status n

/-- A mid-session state: one block transferred, counters about to wrap. -/
def sample_state : State :=
  { m_blocks_transferred := 1
    m_zero_samples_to_ignore := 0
    m_sample_value_to_send := 0xFFFF
    m_sample_value_expected := 0xFFFF
    m_error_encountered := false
    mp_block_to_fill := 0
    mp_block_to_check := 0
    actions := [] }

/-- A fresh session state, as `prepare_tx_data` leaves the counters after its
re-initialisation. -/
def fresh_state : State :=
  { m_blocks_transferred := 0
    m_zero_samples_to_ignore := 2
    m_sample_value_to_send := 0xCAFE
    m_sample_value_expected := 0xCAFE
    m_error_encountered := false
    mp_block_to_fill := 0
    mp_block_to_check := 0
    actions := [] }

/-- The word holding the pair `(c - 1, c + 1)`. -/
def pair_word (c : Int) : Nat := u16 (c + 1) * 65536 + u16 (c - 1)

/-- A block of all-zero words. -/
def zero_block : Block := fun _ => 0

/-- The block that continues the expected sequence of `sample_state`. -/
def good_block : Block := fun i => pair_word (0xFFFF + (i : Int))

/-- The block a fresh session receives after two warm-up zero pairs. -/
def warmup_block : Block := fun i => if i < 2 then 0 else pair_word (0xCAFE + ((i - 2 : Nat) : Int))

/-- The block `good_block` with the pair at index 7 corrupted. -/
def bad_block : Block := fun i => if i = 7 then 0 else pair_word (0xFFFF + (i : Int))

/-- The LED variables before `i2s_init`: three pixels (the header's default
count) in red, green and blue, brightness 128, the buffer size already at the
15 words of a three-pixel frame, no transmit buffer yet. -/
def led_boot : LedState :=
  { m_pPixels := 0x20003000
    pixels := fun k => if k = 0 then ⟨255, 0, 0⟩ else if k = 1 then ⟨0, 255, 0⟩ else ⟨0, 0, 255⟩
    m_pTXBuffer := NULL
    tx_bytes := fun _ => 0
    m_numPixels := 3
    m_brightness := 128
    m_i2sBufferSize := 15
    tx_stores := []
    started := none }

/-- The LED variables after `i2s_init`, when `malloc` hands out a block whose
bytes all hold 0xFF. -/
def led_after_init : LedState :=
  (i2s_init 0x20004000 (fun _ => 0xFF) NRF_SUCCESS led_boot).getD led_boot

/-- The start-up variables with a single pixel. -/
def led_one_pixel : LedState := { led_boot with m_numPixels := 1 }

/-- The scaled channel `(c * brightness) >> 8` of line 339. -/
def scaled (c m_brightness : Nat) : Nat := (c * m_brightness) >>> 8

/-- The word `(g' << 16) | (r' << 8) | b'` of line 339, before its conversion
to `uint32_t`. -/
def color_word (p : LEDDRIVERPIXEL) (m_brightness : Nat) : Nat :=
  (scaled p.g m_brightness <<< 16) ||| (scaled p.r m_brightness <<< 8) ||| scaled p.b m_brightness

/-- The 12 bytes `FillI2SDriverBuffer` leaves for pixel `q`, in buffer order. -/
def pixel_bytes (s : LedState) (q : Nat) : List Nat :=
  (List.range I2S_WS2812B_DRIVE_BUF_SIZE_PER_LED).map
    (fun j => (FillI2SDriverBuffer s).tx_bytes ((12 * q + j : Nat) : Int))

/-- The start-up sample at brightness 0. -/
def led_dark : LedState := { led_boot with m_brightness := 0 }

/-- Three white pixels at brightness 255. -/
def led_white : LedState :=
  { led_boot with pixels := fun _ => { r := 255, g := 255, b := 255 }, m_brightness := 255 }

/-- A single pixel with only the red channel set, at brightness 255. -/
def led_red : LedState :=
  { led_boot with pixels := fun _ => { r := 0x81, g := 0, b := 0 }, m_brightness := 255 }

/-- The byte offsets stored to by `n` inner-loop steps that start at offset 0
with `offset = +1`: step `j` stores to `j + 1` when `j` is even and to `j - 1`
when `j` is odd. -/
def store_offsets (n : Nat) : List Int :=
  (List.range n).map (fun j => ((step_of_byte j : Nat) : Int))

/-- The start-up sample with 21844 pixels, the first count for which
`3 * N + RESET_BITS` does not fit 16 bits. -/
def led_wrap : LedState := { led_boot with m_numPixels := 21844 }

/-- The mid-session sample state after an earlier mismatch: the error flag is
set. -/
def failed_state : State := { sample_state with m_error_encountered := true }

/-- A block whose pairs are all zero but pair 0, which continues the fresh
sequence. -/
def late_zero_block : Block := fun i => if i = 0 then pair_word 0xCAFE else 0

/-- The self-test variables at power-up, as the header initialises them. -/
def power_up_state : State :=
  { m_blocks_transferred := 0
    m_zero_samples_to_ignore := 0
    m_sample_value_to_send := 0
    m_sample_value_expected := 0
    m_error_encountered := false
    mp_block_to_fill := NULL
    mp_block_to_check := NULL
    actions := [] }

/-- The blocks written by `n` successive `prepare_tx_data` calls, each on a
block of zero words. -/
def generated_blocks : Nat → State → List Block
  | 0, _ => []
  | n + 1, s =>
    (prepare_tx_data s zero_block).2 :: generated_blocks n (prepare_tx_data s zero_block).1

/-- The generator's sample stream: word `m` of the concatenated blocks. -/
def generated_stream (blocks : List Block) (m : Nat) : Nat :=
  (blocks.getD (m / I2S_DATA_BLOCK_WORDS) zero_block) (m % I2S_DATA_BLOCK_WORDS)

/-- Received block `j` of the loopback when the stream arrives `d` pairs late:
`d` all-zero pairs, then the generator's stream, cut into blocks. -/
def received_block (d : Nat) (blocks : List Block) (j : Nat) : Block :=
  fun i =>
    if I2S_DATA_BLOCK_WORDS * j + i < d then 0
    else generated_stream blocks (I2S_DATA_BLOCK_WORDS * j + i - d)

/-- The first `n` received blocks of the loopback. -/
def received_blocks (d : Nat) (blocks : List Block) (n : Nat) : List Block :=
  (List.range n).map (received_block d blocks)

/-! ## Self-test: the transfer session -/

/-- What happens around one pass of the main loop of `i2s_transfer` (lines
231-248): the notifications the handler receives before line 238 reads
`mp_block_to_fill`, while `prepare_tx_data` runs (before the store of line
241), before line 243 reads `mp_block_to_check`, and while `check_rx_data` runs
(before the store of line 246); and the contents `rx` of the received block as
`check_rx_data` reads it. -/
structure Wakeup where
  before_fill : List (nrf_drv_i2s_buffers_t × Nat)
  during_fill : List (nrf_drv_i2s_buffers_t × Nat)
  before_check : List (nrf_drv_i2s_buffers_t × Nat)
  during_check : List (nrf_drv_i2s_buffers_t × Nat)
  rx : Block

/-- The self-test variables together with the transmit blocks (by address)
and a ghost log that records, for every `prepare_tx_data` call made by
`i2s_transfer`, whether the call took the re-initialisation branch. -/
structure Transfer where
  s : State
  tx_blocks : Nat → Block
  reinit_log : List Bool

/-- A call `prepare_tx_data(p)` from `i2s_transfer`. -/
def call_prepare_tx_data (p : Nat) (t : Transfer) : Transfer :=
  { s := (prepare_tx_data t.s (t.tx_blocks p)).1
    tx_blocks := Function.update t.tx_blocks p (prepare_tx_data t.s (t.tx_blocks p)).2
    reinit_log := t.reinit_log ++
      [decide (t.s.m_blocks_transferred = 0 ∧ t.s.m_zero_samples_to_ignore = 0)] }

/-- The handler runs on a list of notifications; `none` when it does not
return. -/
def interrupts (d : Driver) (ns : List (nrf_drv_i2s_buffers_t × Nat)) (t : Transfer) :
    Option Transfer :=
  (run_notifications d ns t.s).map (fun s1 => { t with s := s1 })

/-- Lines 238-242. -/
def fill_step (d : Driver) (w : Wakeup) (t : Transfer) : Option Transfer :=
  if t.s.mp_block_to_fill ≠ NULL then
    (interrupts d w.during_fill (call_prepare_tx_data t.s.mp_block_to_fill t)).map
      (fun t1 => { t1 with s := { t1.s with mp_block_to_fill := NULL } })
  else some t

/-- Lines 243-247. -/
def check_step (d : Driver) (w : Wakeup) (t : Transfer) : Option Transfer :=
  if t.s.mp_block_to_check ≠ NULL then
    (interrupts d w.during_check { t with s := check_rx_data t.s w.rx }).map
      (fun t1 => { t1 with s := { t1.s with mp_block_to_check := NULL } })
  else some t

/-- The body of the `do ... while` loop (lines 232-247). -/
def loop_body (d : Driver) (w : Wakeup) (t : Transfer) : Option Transfer :=
  (((interrupts d w.before_fill t).bind (fill_step d w)).bind
    (interrupts d w.before_check)).bind (check_step d w)

/-- The `do ... while` loop (lines 231-248) over the passes the events allow.
The flag tells whether the loop has ended (`m_blocks_transferred` reached
`BLOCKS_TO_TRANSFER`) or is still waiting for an event. -/
def transfer_loop (d : Driver) : List Wakeup → Transfer → Option (Transfer × Bool)
  | [], t => some (t, false)
  | w :: ws, t =>
    match loop_body d w t with
    | none => none
    | some t1 =>
      if t1.s.m_blocks_transferred < BLOCKS_TO_TRANSFER then transfer_loop d ws t1
      else some (t1, true)

/-- The function `i2s_transfer` (lines 215-256); `err_code` is what
`nrf_drv_i2s_start` returns, and the result is `none` when an
`APP_ERROR_CHECK` sees a code other than `NRF_SUCCESS`. -/
def i2s_transfer (d : Driver) (err_code : Nat) (ws : List Wakeup) (t : Transfer) :
    Option (Transfer × Bool) :=
  let s1 := { t.s with
    m_blocks_transferred := 0
    mp_block_to_fill := NULL
    mp_block_to_check := NULL }
  let t1 := call_prepare_tx_data (d.m_buffer_tx 0) { t with s := s1 }
  if err_code ≠ NRF_SUCCESS then none else transfer_loop d ws t1

/-- The self-test at power-up: the header's initial values, transmit blocks
of zero words, no generator call yet. -/
def power_up : Transfer :=
  { s := power_up_state, tx_blocks := fun _ => zero_block, reinit_log := [] }

/-- One pass in which the handler is notified once before the loop reads
`mp_block_to_check`, and the received block holds zero words. -/
def sample_wakeup (released : nrf_drv_i2s_buffers_t) : Wakeup :=
  { before_fill := [(released, 1)]
    during_fill := []
    before_check := []
    during_check := []
    rx := zero_block }

/-- The passes of one session: the first notification releases no receive
block, the following ones release the pairs `B, A, B, A, ...`. -/
def sample_session (n : Nat) : List Wakeup :=
  sample_wakeup pair_first ::
    (alternating_script pair_B pair_A 1 n).map (fun m => sample_wakeup m.1)

/-- The session invariant of the counters: either no block has been checked
yet (the skip counter still holds the 2 of the re-initialisation and the flag is
clear), or between 1 and `BLOCKS_TO_TRANSFER` blocks have been checked and the
skip counter is 0. -/
def in_session (s : State) : Prop :=
  (s.m_blocks_transferred = 0 ∧ s.m_zero_samples_to_ignore = 2
      ∧ s.m_error_encountered = false)
  ∨ (1 ≤ s.m_blocks_transferred ∧ s.m_blocks_transferred ≤ BLOCKS_TO_TRANSFER
      ∧ s.m_zero_samples_to_ignore = 0)

/-! ## Helper lemmas: generator -/

theorem store_half1_store_half0 (w l r : Nat) :
    store_half1 (store_half0 w l) r = r % 65536 * 65536 + l % 65536 := by
  unfold store_half1 store_half0
  omega

theorem prepare_tx_loop_succ (n i : Nat) (s : State) (p_block : Block) :
    prepare_tx_loop (n + 1) i s p_block =
      prepare_tx_loop n (i + 1)
        { s with m_sample_value_to_send := u16 ((s.m_sample_value_to_send : Int) + 1) }
        (Function.update p_block i
          (store_half1 (store_half0 (p_block i) (u16 ((s.m_sample_value_to_send : Int) - 1)))
            (u16 ((s.m_sample_value_to_send : Int) + 1)))) := rfl

/-- The generator loop touches only the send counter, which advances by the
number of iterations. -/
theorem prepare_tx_loop_state (n : Nat) : ∀ (i : Nat) (s : State) (p_block : Block), 0 < n →
    (prepare_tx_loop n i s p_block).1 =
      { s with m_sample_value_to_send := u16 ((s.m_sample_value_to_send : Int) + n) } := by
  induction n with
  | zero => intro i s p_block h; omega
  | succ n ih =>
    intro i s p_block _
    rw [prepare_tx_loop_succ]
    rcases Nat.eq_zero_or_pos n with h0 | hpos
    · subst h0
      simp [prepare_tx_loop]
    · rw [ih _ _ _ hpos]
      have : u16 ((u16 ((s.m_sample_value_to_send : Int) + 1) : Int) + (n : Int))
          = u16 ((s.m_sample_value_to_send : Int) + ((n + 1 : Nat) : Int)) := by
        unfold u16; omega
      simp [this]

/-- The word the generator loop leaves at index `j`. -/
theorem prepare_tx_loop_block (n : Nat) : ∀ (i : Nat) (s : State) (p_block : Block) (j : Nat),
    (prepare_tx_loop n i s p_block).2 j =
      if i ≤ j ∧ j < i + n then
        u16 ((s.m_sample_value_to_send : Int) + ((j - i : Nat) : Int) + 1) * 65536
          + u16 ((s.m_sample_value_to_send : Int) + ((j - i : Nat) : Int) - 1)
      else p_block j := by
  induction n with
  | zero =>
    intro i s p_block j
    have h0 : ¬ (i ≤ j ∧ j < i + 0) := by omega
    rw [if_neg h0]
    rfl
  | succ n ih =>
    intro i s p_block j
    rw [prepare_tx_loop_succ, ih, store_half1_store_half0]
    by_cases hj : j = i
    · subst hj
      have h1 : ¬ (j + 1 ≤ j ∧ j < j + 1 + n) := by omega
      have h2 : j ≤ j ∧ j < j + (n + 1) := by omega
      rw [if_neg h1, if_pos h2, Function.update_same]
      unfold u16
      omega
    · by_cases hin : i + 1 ≤ j ∧ j < i + 1 + n
      · have h2 : i ≤ j ∧ j < i + (n + 1) := by omega
        rw [if_pos hin, if_pos h2]
        have e1 : ((j - (i + 1) : Nat) : Int) = ((j - i : Nat) : Int) - 1 := by omega
        rw [e1]
        unfold u16
        simp only
        omega
      · have h2 : ¬ (i ≤ j ∧ j < i + (n + 1)) := by omega
        rw [if_neg hin, if_neg h2, Function.update_noteq hj]

/-! ## Helper lemmas: validator -/

/-- One iteration that absorbs a warm-up zero pair. -/
theorem check_samples_loop_absorb (n i : Nat) (s : State) (p_block : Block)
    (hz : 0 < s.m_zero_samples_to_ignore)
    (hl : load_half0 (p_block i) = 0) (hr : load_half1 (p_block i) = 0) :
    check_samples_loop (n + 1) i s p_block =
      check_samples_loop n (i + 1)
        { s with m_zero_samples_to_ignore := u8 ((s.m_zero_samples_to_ignore : Int) - 1) }
        p_block := by
  rw [check_samples_loop]
  simp [hz, hl, hr]

/-- One iteration whose pair is compared and matches. -/
theorem check_samples_loop_match (n i : Nat) (s : State) (p_block : Block)
    (hz : ¬ (0 < s.m_zero_samples_to_ignore ∧ load_half0 (p_block i) = 0
      ∧ load_half1 (p_block i) = 0))
    (hl : load_half0 (p_block i) = u16 ((s.m_sample_value_expected : Int) - 1))
    (hr : load_half1 (p_block i) = u16 ((s.m_sample_value_expected : Int) + 1)) :
    check_samples_loop (n + 1) i s p_block =
      check_samples_loop n (i + 1)
        { s with
          m_zero_samples_to_ignore := 0
          m_sample_value_expected := u16 ((s.m_sample_value_expected : Int) + 1) }
        p_block := by
  rw [check_samples_loop]
  simp only [gt_iff_lt]
  rw [if_neg hz]
  simp [hl, hr]

/-- One iteration whose pair is compared and differs: the loop returns. -/
theorem check_samples_loop_mismatch (n i : Nat) (s : State) (p_block : Block)
    (hz : ¬ (0 < s.m_zero_samples_to_ignore ∧ load_half0 (p_block i) = 0
      ∧ load_half1 (p_block i) = 0))
    (hne : load_half0 (p_block i) ≠ u16 ((s.m_sample_value_expected : Int) - 1)
      ∨ load_half1 (p_block i) ≠ u16 ((s.m_sample_value_expected : Int) + 1)) :
    check_samples_loop (n + 1) i s p_block =
      (false, { s with
          m_zero_samples_to_ignore := 0
          m_sample_value_expected := u16 ((s.m_sample_value_expected : Int) + 1) }) := by
  rw [check_samples_loop]
  simp only [gt_iff_lt]
  rw [if_neg hz, if_pos hne]

/-- A pair `(x - 1, x + 1)` of 16-bit values is never `(0, 0)`. -/
theorem expected_pair_ne_zero (x : Int) : ¬ (u16 (x - 1) = 0 ∧ u16 (x + 1) = 0) := by
  unfold u16
  omega

/-- A run of pairs that all match the expected sequence is accepted, whatever
the skip counter: the loop returns `true`, with the skip counter cleared and
the expected counter advanced by the number of pairs. -/
theorem check_samples_loop_all_match (n : Nat) :
    ∀ (i : Nat) (s : State) (p_block : Block) (E : Int),
    (s.m_sample_value_expected : Int) % 65536 = E % 65536 →
    (∀ k, k < n → load_half0 (p_block (i + k)) = u16 (E + (k : Int) - 1)
      ∧ load_half1 (p_block (i + k)) = u16 (E + (k : Int) + 1)) →
    0 < n →
    check_samples_loop n i s p_block =
      (true, { s with
          m_zero_samples_to_ignore := 0
          m_sample_value_expected := u16 (E + (n : Int)) }) := by
  induction n with
  | zero => intro i s p_block E _ _ h; omega
  | succ n ih =>
    intro i s p_block E hE hb _
    have h0 := hb 0 (by omega)
    simp only [Nat.add_zero, Nat.cast_zero, add_zero] at h0
    have el : u16 (E - 1) = u16 ((s.m_sample_value_expected : Int) - 1) := by
      unfold u16; omega
    have er : u16 (E + 1) = u16 ((s.m_sample_value_expected : Int) + 1) := by
      unfold u16; omega
    have hz : ¬ (0 < s.m_zero_samples_to_ignore ∧ load_half0 (p_block i) = 0
        ∧ load_half1 (p_block i) = 0) := by
      rintro ⟨_, h1, h2⟩
      exact expected_pair_ne_zero E ⟨by rw [← h0.1]; exact h1, by rw [← h0.2]; exact h2⟩
    rw [check_samples_loop_match n i s p_block hz (by rw [h0.1, el]) (by rw [h0.2, er])]
    rcases Nat.eq_zero_or_pos n with hn | hpos
    · subst hn
      simp only [check_samples_loop, Nat.cast_add, Nat.cast_zero, Nat.cast_one, zero_add]
      rw [er]
    · rw [ih (i + 1) _ p_block (E + 1) (by simp only [u16]; omega) _ hpos]
      · have e2 : E + 1 + (n : Int) = E + ((n + 1 : Nat) : Int) := by push_cast; ring
        rw [e2]
      · intro k hk
        have hk1 := hb (k + 1) (by omega)
        have e3 : i + 1 + k = i + (k + 1) := by omega
        have e4 : E + ((k + 1 : Nat) : Int) = E + 1 + (k : Int) := by push_cast; ring
        rw [e3]
        rw [e4] at hk1
        exact hk1

/-- With the skip counter at zero, a run whose pairs match up to index `k` and
whose pair `k` differs from the expected one is rejected. -/
theorem check_samples_loop_first_mismatch (k : Nat) :
    ∀ (n i : Nat) (s : State) (p_block : Block) (E : Int),
    s.m_zero_samples_to_ignore = 0 →
    (s.m_sample_value_expected : Int) % 65536 = E % 65536 →
    k < n →
    (∀ m, m < k → load_half0 (p_block (i + m)) = u16 (E + (m : Int) - 1)
      ∧ load_half1 (p_block (i + m)) = u16 (E + (m : Int) + 1)) →
    (load_half0 (p_block (i + k)) ≠ u16 (E + (k : Int) - 1)
      ∨ load_half1 (p_block (i + k)) ≠ u16 (E + (k : Int) + 1)) →
    (check_samples_loop n i s p_block).1 = false := by
  induction k with
  | zero =>
    intro n i s p_block E hs hE hn _ hne
    obtain ⟨n, rfl⟩ : ∃ n', n = n' + 1 := ⟨n - 1, by omega⟩
    have el : u16 (E - 1) = u16 ((s.m_sample_value_expected : Int) - 1) := by
      unfold u16; omega
    have er : u16 (E + 1) = u16 ((s.m_sample_value_expected : Int) + 1) := by
      unfold u16; omega
    simp only [Nat.add_zero, Nat.cast_zero, add_zero] at hne
    rw [el, er] at hne
    rw [check_samples_loop_mismatch n i s p_block (by omega) hne]
  | succ k ih =>
    intro n i s p_block E hs hE hn hb hne
    obtain ⟨n, rfl⟩ : ∃ n', n = n' + 1 := ⟨n - 1, by omega⟩
    have h0 := hb 0 (by omega)
    simp only [Nat.add_zero, Nat.cast_zero, add_zero] at h0
    have el : u16 (E - 1) = u16 ((s.m_sample_value_expected : Int) - 1) := by
      unfold u16; omega
    have er : u16 (E + 1) = u16 ((s.m_sample_value_expected : Int) + 1) := by
      unfold u16; omega
    rw [check_samples_loop_match n i s p_block (by omega) (by rw [h0.1, el]) (by rw [h0.2, er])]
    have e3 : i + 1 + k = i + (k + 1) := by omega
    have e4 : E + ((k + 1 : Nat) : Int) = E + 1 + (k : Int) := by push_cast; ring
    apply ih n (i + 1) _ p_block (E + 1) rfl (by simp only [u16]; omega) (by omega)
    · intro m hm
      have hm1 := hb (m + 1) (by omega)
      have e5 : i + 1 + m = i + (m + 1) := by omega
      have e6 : E + ((m + 1 : Nat) : Int) = E + 1 + (m : Int) := by push_cast; ring
      rw [e5]
      rw [e6] at hm1
      exact hm1
    · rw [e3]
      rw [e4] at hne
      exact hne

/-- Once the error flag is set, `check_rx_data` leaves it set. -/
theorem check_rx_data_error_stays (s : State) (p_block : Block)
    (h : s.m_error_encountered = true) :
    (check_rx_data s p_block).m_error_encountered = true := by
  simp [check_rx_data, h]

/-- Once the error flag is set, no sequence of `check_rx_data` calls clears it. -/
theorem foldl_check_rx_data_error_stays (later : List Block) :
    ∀ s : State, s.m_error_encountered = true →
      (later.foldl check_rx_data s).m_error_encountered = true := by
  induction later with
  | nil => intro s h; exact h
  | cons b rest ih =>
    intro s h
    exact ih _ (check_rx_data_error_stays s b h)

theorem u16_lt (x : Int) : u16 x < 65536 := by
  unfold u16
  omega

theorem load_half0_pack (a b : Nat) (hb : b < 65536) : load_half0 (a * 65536 + b) = b := by
  unfold load_half0
  omega

theorem load_half1_pack (a b : Nat) (ha : a < 65536) (hb : b < 65536) :
    load_half1 (a * 65536 + b) = a := by
  unfold load_half1
  omega

theorem load_half0_pair_word (c : Int) : load_half0 (pair_word c) = u16 (c - 1) :=
  load_half0_pack _ _ (u16_lt _)

theorem load_half1_pair_word (c : Int) : load_half1 (pair_word c) = u16 (c + 1) :=
  load_half1_pack _ _ (u16_lt _) (u16_lt _)

/-- A block that agrees with the expected sequence at every index but `j`,
where its pair differs, is rejected by `check_samples`, whatever the skip
counter. -/
theorem check_samples_single_corruption (s : State) (p_block : Block) (j : Nat)
    (hj : j < I2S_DATA_BLOCK_WORDS)
    (hothers : ∀ i, i < I2S_DATA_BLOCK_WORDS → i ≠ j →
      load_half0 (p_block i) = u16 ((s.m_sample_value_expected : Int) + (i : Int) - 1)
      ∧ load_half1 (p_block i) = u16 ((s.m_sample_value_expected : Int) + (i : Int) + 1))
    (hbad : load_half0 (p_block j) ≠ u16 ((s.m_sample_value_expected : Int) + (j : Int) - 1)
      ∨ load_half1 (p_block j) ≠ u16 ((s.m_sample_value_expected : Int) + (j : Int) + 1)) :
    (check_samples s p_block).1 = false := by
  unfold I2S_DATA_BLOCK_WORDS at hj hothers
  by_cases habs : 0 < s.m_zero_samples_to_ignore ∧ load_half0 (p_block 0) = 0
      ∧ load_half1 (p_block 0) = 0
  · have hj0 : j = 0 := by
      by_contra hne
      have h0 := hothers 0 (by omega) (fun h => hne h.symm)
      simp only [Nat.cast_zero, add_zero] at h0
      exact expected_pair_ne_zero _ ⟨by rw [← h0.1]; exact habs.2.1, by rw [← h0.2]; exact habs.2.2⟩
    subst hj0
    have h1 := hothers 1 (by omega) (by omega)
    simp only [Nat.cast_one] at h1
    show (check_samples_loop (510 + 1 + 1) 0 s p_block).1 = false
    rw [check_samples_loop_absorb _ 0 s p_block habs.1 habs.2.1 habs.2.2]
    rw [check_samples_loop_mismatch 510 (0 + 1) _ p_block]
    · rintro ⟨_, h2, h3⟩
      exact expected_pair_ne_zero ((s.m_sample_value_expected : Int) + 1)
        ⟨by rw [← h1.1]; exact h2, by rw [← h1.2]; exact h3⟩
    · left
      show load_half0 (p_block 1) ≠ u16 ((s.m_sample_value_expected : Int) - 1)
      rw [h1.1]
      unfold u16
      omega
  · show (check_samples_loop (511 + 1) 0 s p_block).1 = false
    by_cases hj0 : j = 0
    · subst hj0
      simp only [Nat.cast_zero, add_zero] at hbad
      rw [check_samples_loop_mismatch 511 0 s p_block habs hbad]
    · have h0 := hothers 0 (by omega) (fun h => hj0 h.symm)
      simp only [Nat.cast_zero, add_zero] at h0
      rw [check_samples_loop_match 511 0 s p_block habs h0.1 h0.2]
      apply check_samples_loop_first_mismatch (j - 1) 511 (0 + 1) _ p_block
        ((s.m_sample_value_expected : Int) + 1) rfl (by simp only [u16]; omega) (by omega)
      · intro m hm
        have hm1 := hothers (m + 1) (by omega) (by omega)
        have e1 : 0 + 1 + m = m + 1 := by omega
        have e2 : (s.m_sample_value_expected : Int) + ((m + 1 : Nat) : Int)
            = (s.m_sample_value_expected : Int) + 1 + (m : Int) := by push_cast; ring
        rw [e1]
        rw [e2] at hm1
        exact hm1
      · have e1 : 0 + 1 + (j - 1) = j := by omega
        have e2 : (s.m_sample_value_expected : Int) + (j : Int)
            = (s.m_sample_value_expected : Int) + 1 + ((j - 1 : Nat) : Int) := by omega
        rw [e1]
        rw [e2] at hbad
        exact hbad

/-- The function `check_rx_data` when the error flag is not set: the block
counter is incremented and the flag becomes the negated result of
`check_samples`. -/
theorem check_rx_data_of_no_error (s : State) (p_block : Block)
    (h : s.m_error_encountered = false) :
    check_rx_data s p_block =
      { (check_samples
            { s with m_blocks_transferred := u8 ((s.m_blocks_transferred : Int) + 1) }
            p_block).2 with
        m_error_encountered :=
          !(check_samples
            { s with m_blocks_transferred := u8 ((s.m_blocks_transferred : Int) + 1) }
            p_block).1 } := by
  unfold check_rx_data
  simp only [h, Bool.not_false, if_true]

/-- The result of `check_samples` on a block that continues the expected
sequence. -/
theorem check_samples_expected_eq (s : State) (p_block : Block)
    (hb : ∀ i, i < I2S_DATA_BLOCK_WORDS →
      load_half0 (p_block i) = u16 ((s.m_sample_value_expected : Int) + (i : Int) - 1)
      ∧ load_half1 (p_block i) = u16 ((s.m_sample_value_expected : Int) + (i : Int) + 1)) :
    check_samples s p_block =
      (true, { s with
          m_zero_samples_to_ignore := 0
          m_sample_value_expected := u16 ((s.m_sample_value_expected : Int) + 512) }) := by
  unfold I2S_DATA_BLOCK_WORDS at hb
  have h := check_samples_loop_all_match 512 0 s p_block (s.m_sample_value_expected : Int) rfl
    (fun k hk => by rw [Nat.zero_add]; exact hb k hk) (by omega)
  exact h

/-- The result of `check_samples` on a block made of two zero pairs followed by
the expected sequence, when the skip counter is 2. -/
theorem check_samples_warmup_eq (s : State) (p_block : Block)
    (hz : s.m_zero_samples_to_ignore = 2)
    (h0 : load_half0 (p_block 0) = 0 ∧ load_half1 (p_block 0) = 0)
    (h1 : load_half0 (p_block 1) = 0 ∧ load_half1 (p_block 1) = 0)
    (hb : ∀ j, j < 510 →
      load_half0 (p_block (2 + j)) = u16 ((s.m_sample_value_expected : Int) + (j : Int) - 1)
      ∧ load_half1 (p_block (2 + j)) = u16 ((s.m_sample_value_expected : Int) + (j : Int) + 1)) :
    check_samples s p_block =
      (true, { s with
          m_zero_samples_to_ignore := 0
          m_sample_value_expected := u16 ((s.m_sample_value_expected : Int) + 510) }) := by
  show check_samples_loop (510 + 1 + 1) 0 s p_block = _
  rw [check_samples_loop_absorb _ 0 s p_block (by omega) h0.1 h0.2]
  rw [check_samples_loop_absorb 510 (0 + 1) _ p_block (by simp [hz, u8]) h1.1 h1.2]
  refine Eq.trans (check_samples_loop_all_match 510 (0 + 1 + 1) _ p_block
    (s.m_sample_value_expected : Int) rfl (fun k hk => hb k hk) (by omega)) ?_
  rfl

/-! ## The self-test claims -/

/-- C4: when no re-initialisation is triggered, `prepare_tx_data` started with
send counter `c` leaves in every word `i < 512` of the block the pair
`(c + i - 1) mod 2^16` (low half-word) and `(c + i + 1) mod 2^16` (high
half-word), leaves the send counter at `(c + 512) mod 2^16`, and changes no
other variable (so neither the expected counter, the skip counter nor the error
flag). -/
theorem prepare_tx_data_writes_offset_pairs (s : State) (p_block : Block)
    (h : ¬ (s.m_blocks_transferred = 0 ∧ s.m_zero_samples_to_ignore = 0)) :
    (∀ i, i < I2S_DATA_BLOCK_WORDS →
      (load_half0 ((prepare_tx_data s p_block).2 i) : Int)
          = ((s.m_sample_value_to_send : Int) + (i : Int) - 1) % 65536
      ∧ (load_half1 ((prepare_tx_data s p_block).2 i) : Int)
          = ((s.m_sample_value_to_send : Int) + (i : Int) + 1) % 65536
      ∧ (((prepare_tx_data s p_block).2 i : Nat) : Int)
          = ((s.m_sample_value_to_send : Int) + (i : Int) - 1) % 65536
            + 65536 * (((s.m_sample_value_to_send : Int) + (i : Int) + 1) % 65536))
    ∧ ((prepare_tx_data s p_block).1.m_sample_value_to_send : Int)
        = ((s.m_sample_value_to_send : Int) + 512) % 65536
    ∧ (prepare_tx_data s p_block).1 =
        { s with m_sample_value_to_send := (prepare_tx_data s p_block).1.m_sample_value_to_send }
    ∧ (prepare_tx_data s p_block).1.m_sample_value_expected = s.m_sample_value_expected
    ∧ (prepare_tx_data s p_block).1.m_zero_samples_to_ignore = s.m_zero_samples_to_ignore
    ∧ (prepare_tx_data s p_block).1.m_error_encountered = s.m_error_encountered := by
  have hpd : prepare_tx_data s p_block = prepare_tx_loop 512 0 s p_block := by
    unfold prepare_tx_data
    rw [if_neg h]
    rfl
  have hst := prepare_tx_loop_state 512 0 s p_block (by omega)
  rw [hpd]
  refine ⟨?_, ?_, ?_, ?_, ?_, ?_⟩
  · intro i hi
    unfold I2S_DATA_BLOCK_WORDS at hi
    rw [prepare_tx_loop_block]
    have hin : 0 ≤ i ∧ i < 0 + 512 := by omega
    rw [if_pos hin, load_half0_pack _ _ (u16_lt _), load_half1_pack _ _ (u16_lt _) (u16_lt _)]
    simp only [Nat.sub_zero, u16]
    omega
  · rw [hst]
    simp only [u16]
    omega
  · rw [hst]
  · rw [hst]
  · rw [hst]
  · rw [hst]

/-- C4, at a concrete input: a mid-session state whose send counter is 0xFFFF,
so that the pairs wrap. -/
theorem prepare_tx_data_writes_offset_pairs_witness :
    ¬ (sample_state.m_blocks_transferred = 0 ∧ sample_state.m_zero_samples_to_ignore = 0)
    ∧ (load_half0 ((prepare_tx_data sample_state zero_block).2 0) : Int) = 65534
    ∧ (load_half1 ((prepare_tx_data sample_state zero_block).2 0) : Int) = 0
    ∧ ((prepare_tx_data sample_state zero_block).1.m_sample_value_to_send : Int) = 511 :=
  ⟨by decide,
   ((prepare_tx_data_writes_offset_pairs sample_state zero_block (by decide)).1 0
      (by decide)).1,
   ((prepare_tx_data_writes_offset_pairs sample_state zero_block (by decide)).1 0
      (by decide)).2.1,
   (prepare_tx_data_writes_offset_pairs sample_state zero_block (by decide)).2.1⟩

/-- C5: for every expected-counter value `e` and every value of the skip
counter, if word `i` of a block holds the pair `((e + i - 1) mod 2^16,
(e + i + 1) mod 2^16)` for every `i < 512`, then `check_samples` returns true
with the expected counter at `(e + 512) mod 2^16`, and `check_rx_data` called
with the error flag false leaves it false, again with the expected counter at
`(e + 512) mod 2^16`. -/
theorem check_samples_accepts_expected_block (s : State) (p_block : Block)
    (hb : ∀ i, i < I2S_DATA_BLOCK_WORDS →
      (load_half0 (p_block i) : Int) = ((s.m_sample_value_expected : Int) + (i : Int) - 1) % 65536
      ∧ (load_half1 (p_block i) : Int)
          = ((s.m_sample_value_expected : Int) + (i : Int) + 1) % 65536) :
    (check_samples s p_block).1 = true
    ∧ ((check_samples s p_block).2.m_sample_value_expected : Int)
        = ((s.m_sample_value_expected : Int) + 512) % 65536
    ∧ (s.m_error_encountered = false →
        (check_rx_data s p_block).m_error_encountered = false
        ∧ ((check_rx_data s p_block).m_sample_value_expected : Int)
            = ((s.m_sample_value_expected : Int) + 512) % 65536) := by
  have hb1 : ∀ (t : State), t.m_sample_value_expected = s.m_sample_value_expected →
      ∀ i, i < I2S_DATA_BLOCK_WORDS →
      load_half0 (p_block i) = u16 ((t.m_sample_value_expected : Int) + (i : Int) - 1)
      ∧ load_half1 (p_block i) = u16 ((t.m_sample_value_expected : Int) + (i : Int) + 1) := by
    intro t ht i hi
    have h := hb i hi
    rw [ht]
    simp only [u16]
    omega
  refine ⟨?_, ?_, ?_⟩
  · rw [check_samples_expected_eq s p_block (hb1 s rfl)]
  · rw [check_samples_expected_eq s p_block (hb1 s rfl)]
    simp only [u16]
    omega
  · intro herr
    have hcr := check_samples_expected_eq
      { s with m_blocks_transferred := u8 ((s.m_blocks_transferred : Int) + 1) } p_block
      (hb1 _ rfl)
    rw [check_rx_data_of_no_error s p_block herr, hcr]
    refine ⟨rfl, ?_⟩
    simp only [u16]
    omega

/-- C5, at a concrete input: a block continuing the sequence from 0xFFFF. -/
theorem check_samples_accepts_expected_block_witness :
    (check_samples sample_state good_block).1 = true
    ∧ ((check_samples sample_state good_block).2.m_sample_value_expected : Int) = 511
    ∧ (check_rx_data sample_state good_block).m_error_encountered = false :=
  have hb : ∀ i, i < I2S_DATA_BLOCK_WORDS →
      (load_half0 (good_block i) : Int)
          = ((sample_state.m_sample_value_expected : Int) + (i : Int) - 1) % 65536
      ∧ (load_half1 (good_block i) : Int)
          = ((sample_state.m_sample_value_expected : Int) + (i : Int) + 1) % 65536 := by
    intro i _
    simp only [good_block, load_half0_pair_word, load_half1_pair_word, sample_state, u16]
    omega
  ⟨(check_samples_accepts_expected_block sample_state good_block hb).1,
   (check_samples_accepts_expected_block sample_state good_block hb).2.1,
   ((check_samples_accepts_expected_block sample_state good_block hb).2.2 rfl).1⟩

/-- C6: warm-up absorption.  From a fresh session state (skip counter 2, error
flag false, expected counter `e`), a block whose first two pairs are `(0, 0)`
and whose remaining 510 pairs are `((e + j - 1) mod 2^16, (e + j + 1) mod 2^16)`
for `j = 0..509` is marked OK: `check_samples` returns true, `check_rx_data`
leaves the error flag false, the skip counter ends at 0 and the expected
counter at `(e + 510) mod 2^16`. -/
theorem check_samples_absorbs_warmup (s : State) (p_block : Block)
    (hz : s.m_zero_samples_to_ignore = 2)
    (herr : s.m_error_encountered = false)
    (h0 : load_half0 (p_block 0) = 0 ∧ load_half1 (p_block 0) = 0)
    (h1 : load_half0 (p_block 1) = 0 ∧ load_half1 (p_block 1) = 0)
    (hb : ∀ j, j < 510 →
      (load_half0 (p_block (2 + j)) : Int)
          = ((s.m_sample_value_expected : Int) + (j : Int) - 1) % 65536
      ∧ (load_half1 (p_block (2 + j)) : Int)
          = ((s.m_sample_value_expected : Int) + (j : Int) + 1) % 65536) :
    (check_samples s p_block).1 = true
    ∧ (check_samples s p_block).2.m_zero_samples_to_ignore = 0
    ∧ ((check_samples s p_block).2.m_sample_value_expected : Int)
        = ((s.m_sample_value_expected : Int) + 510) % 65536
    ∧ (check_rx_data s p_block).m_error_encountered = false
    ∧ (check_rx_data s p_block).m_zero_samples_to_ignore = 0
    ∧ ((check_rx_data s p_block).m_sample_value_expected : Int)
        = ((s.m_sample_value_expected : Int) + 510) % 65536 := by
  have hb1 : ∀ (t : State), t.m_sample_value_expected = s.m_sample_value_expected →
      ∀ j, j < 510 →
      load_half0 (p_block (2 + j)) = u16 ((t.m_sample_value_expected : Int) + (j : Int) - 1)
      ∧ load_half1 (p_block (2 + j)) = u16 ((t.m_sample_value_expected : Int) + (j : Int) + 1) := by
    intro t ht j hj
    have h := hb j hj
    rw [ht]
    simp only [u16]
    omega
  have hcs := check_samples_warmup_eq s p_block hz h0 h1 (hb1 s rfl)
  have hcr := check_samples_warmup_eq
    { s with m_blocks_transferred := u8 ((s.m_blocks_transferred : Int) + 1) } p_block hz h0 h1
    (hb1 _ rfl)
  refine ⟨?_, ?_, ?_, ?_, ?_, ?_⟩
  · rw [hcs]
  · rw [hcs]
  · rw [hcs]
    simp only [u16]
    omega
  · rw [check_rx_data_of_no_error s p_block herr, hcr]
    rfl
  · rw [check_rx_data_of_no_error s p_block herr, hcr]
  · rw [check_rx_data_of_no_error s p_block herr, hcr]
    simp only [u16]
    omega

/-- C6, at a concrete input: the fresh session state of seed 0xCAFE and a block
of two zero pairs followed by the sequence from 0xCAFE. -/
theorem check_samples_absorbs_warmup_witness :
    fresh_state.m_zero_samples_to_ignore = 2
    ∧ fresh_state.m_error_encountered = false
    ∧ (check_samples fresh_state warmup_block).1 = true
    ∧ (check_rx_data fresh_state warmup_block).m_error_encountered = false
    ∧ (check_rx_data fresh_state warmup_block).m_zero_samples_to_ignore = 0
    ∧ ((check_rx_data fresh_state warmup_block).m_sample_value_expected : Int) = 52476 :=
  have hb : ∀ j, j < 510 →
      (load_half0 (warmup_block (2 + j)) : Int)
          = ((fresh_state.m_sample_value_expected : Int) + (j : Int) - 1) % 65536
      ∧ (load_half1 (warmup_block (2 + j)) : Int)
          = ((fresh_state.m_sample_value_expected : Int) + (j : Int) + 1) % 65536 := by
    intro j _
    have h2 : ¬ (2 + j < 2) := by omega
    have h3 : 2 + j - 2 = j := by omega
    simp only [warmup_block, if_neg h2, h3, load_half0_pair_word, load_half1_pair_word,
      fresh_state, u16]
    omega
  have h := check_samples_absorbs_warmup fresh_state warmup_block rfl rfl
    (by decide) (by decide) hb
  ⟨rfl, rfl, h.1, h.2.2.2.1, h.2.2.2.2.1, h.2.2.2.2.2⟩

/-- C7: the error flag is sticky.  A block that agrees with the expected
sequence `((e + i - 1) mod 2^16, (e + i + 1) mod 2^16)` at every index but one,
where its pair differs, makes `check_rx_data` set `m_error_encountered`
(whatever the skip counter and the flag were); and from any state in which the
flag is set, every later sequence of `check_rx_data` calls leaves it set,
whatever the blocks contain. -/
theorem error_flag_is_sticky (s : State) (p_block : Block) (j : Nat)
    (hj : j < I2S_DATA_BLOCK_WORDS)
    (hothers : ∀ i, i < I2S_DATA_BLOCK_WORDS → i ≠ j →
      (load_half0 (p_block i) : Int) = ((s.m_sample_value_expected : Int) + (i : Int) - 1) % 65536
      ∧ (load_half1 (p_block i) : Int)
          = ((s.m_sample_value_expected : Int) + (i : Int) + 1) % 65536)
    (hbad : ¬ ((load_half0 (p_block j) : Int)
          = ((s.m_sample_value_expected : Int) + (j : Int) - 1) % 65536
      ∧ (load_half1 (p_block j) : Int)
          = ((s.m_sample_value_expected : Int) + (j : Int) + 1) % 65536)) :
    (check_rx_data s p_block).m_error_encountered = true
    ∧ (∀ later : List Block,
        (later.foldl check_rx_data (check_rx_data s p_block)).m_error_encountered = true)
    ∧ (∀ (t : State) (later : List Block), t.m_error_encountered = true →
        (later.foldl check_rx_data t).m_error_encountered = true) := by
  have hset : (check_rx_data s p_block).m_error_encountered = true := by
    cases herr : s.m_error_encountered with
    | true => exact check_rx_data_error_stays s p_block herr
    | false =>
      have hrej := check_samples_single_corruption
        { s with m_blocks_transferred := u8 ((s.m_blocks_transferred : Int) + 1) } p_block j hj
        (by
          intro i hi hne
          have h := hothers i hi hne
          simp only [u16]
          omega)
        (by
          by_contra hcon
          apply hbad
          simp only [u16] at hcon
          omega)
      rw [check_rx_data_of_no_error s p_block herr, hrej]
      rfl
  exact ⟨hset, fun later => foldl_check_rx_data_error_stays later _ hset,
    fun t later ht => foldl_check_rx_data_error_stays later t ht⟩

/-- C7, at a concrete input: the pair at index 7 of an otherwise correct block
is corrupted, and two correct blocks follow. -/
theorem error_flag_is_sticky_witness :
    (check_rx_data sample_state bad_block).m_error_encountered = true
    ∧ ([good_block, good_block].foldl check_rx_data
        (check_rx_data sample_state bad_block)).m_error_encountered = true :=
  have hothers : ∀ i, i < I2S_DATA_BLOCK_WORDS → i ≠ 7 →
      (load_half0 (bad_block i) : Int)
          = ((sample_state.m_sample_value_expected : Int) + (i : Int) - 1) % 65536
      ∧ (load_half1 (bad_block i) : Int)
          = ((sample_state.m_sample_value_expected : Int) + (i : Int) + 1) % 65536 := by
    intro i _ hne
    simp only [bad_block, if_neg hne, load_half0_pair_word, load_half1_pair_word,
      sample_state, u16]
    omega
  have h := error_flag_is_sticky sample_state bad_block 7 (by decide) hothers (by decide)
  ⟨h.1, h.2.1 [good_block, good_block]⟩

/-! ## Helper lemmas: notification handler -/

/-- The handler on a notification that asks for next buffers and releases a
pair with a receive buffer, when the driver accepts the submission. -/
theorem i2s_data_handler_released (d : Driver) (released : nrf_drv_i2s_buffers_t)
    (status : Nat) (s : State)
    (hstatus : status &&& d.NRFX_I2S_STATUS_NEXT_BUFFERS_NEEDED ≠ 0)
    (hrx : released.p_rx_buffer ≠ NULL)
    (hok : d.nrf_drv_i2s_next_buffers_set released = NRF_SUCCESS) :
    i2s_data_handler d (some released) status s =
      some { s with
        mp_block_to_check := released.p_rx_buffer
        mp_block_to_fill := released.p_tx_buffer
        actions := s.actions ++
          [Action.store_block_to_check released.p_rx_buffer,
           Action.next_buffers_set released,
           Action.store_block_to_fill released.p_tx_buffer] } := by
  unfold i2s_data_handler
  simp only [if_neg hstatus, if_neg hrx, hok, ne_eq, not_true_eq_false, if_false]

theorem run_notifications_append (d : Driver) (xs ys : List (nrf_drv_i2s_buffers_t × Nat)) :
    ∀ s : State, run_notifications d (xs ++ ys) s =
      (run_notifications d xs s).bind (run_notifications d ys) := by
  induction xs with
  | nil => intro s; rfl
  | cons x xs ih =>
    intro s
    obtain ⟨released, status⟩ := x
    simp only [List.cons_append, run_notifications]
    cases i2s_data_handler d (some released) status s with
    | none => rfl
    | some s1 => exact ih s1

/-- A script of accepted notifications that all release a receive buffer runs
to the end, and the handler's log grows by one submission, one store to
`mp_block_to_fill` and one store to `mp_block_to_check` per notification. -/
theorem run_notifications_log (d : Driver) (script : List (nrf_drv_i2s_buffers_t × Nat)) :
    ∀ s : State,
    (∀ m ∈ script, m.2 &&& d.NRFX_I2S_STATUS_NEXT_BUFFERS_NEEDED ≠ 0
      ∧ m.1.p_rx_buffer ≠ NULL ∧ d.nrf_drv_i2s_next_buffers_set m.1 = NRF_SUCCESS) →
    ∃ t, run_notifications d script s = some t
      ∧ submitted t = submitted s ++ script.map (fun m => m.1)
      ∧ fill_stores t = fill_stores s ++ script.map (fun m => m.1.p_tx_buffer)
      ∧ check_stores t = check_stores s ++ script.map (fun m => m.1.p_rx_buffer) := by
  induction script with
  | nil =>
    intro s _
    exact ⟨s, rfl, by simp, by simp, by simp⟩
  | cons x rest ih =>
    intro s h
    obtain ⟨released, status⟩ := x
    have hx := h (released, status) (List.mem_cons_self _ _)
    obtain ⟨t, ht, h1, h2, h3⟩ := ih
      { s with
        mp_block_to_check := released.p_rx_buffer
        mp_block_to_fill := released.p_tx_buffer
        actions := s.actions ++
          [Action.store_block_to_check released.p_rx_buffer,
           Action.next_buffers_set released,
           Action.store_block_to_fill released.p_tx_buffer] }
      (fun m hm => h m (List.mem_cons_of_mem _ hm))
    refine ⟨t, ?_, ?_, ?_, ?_⟩
    · simp only [run_notifications]
      rw [i2s_data_handler_released d released status s hx.1 hx.2.1 hx.2.2]
      exact ht
    · rw [h1]
      simp [submitted]
    · rw [h2]
      simp [fill_stores]
    · rw [h3]
      simp [check_stores]

/-! ## The handler claims -/

/-- C8: streaming handshake.  Take any script of notifications that all have
`NEXT_BUFFERS_NEEDED` set and release a pair with a non-null receive buffer
(in particular pairs alternating `A, B, A, B, ...`), each submission being
accepted by the driver.  Let the script be `before ++ [n]`, so that `n` is its
`k`-th notification with `k = before.length + 1`.  Then the handler returns
every time; the submit calls made so far are exactly the pairs released so far,
in order (so the `k`-th call passes the pair released by the `k`-th
notification, the same addresses); `mp_block_to_fill` and `mp_block_to_check`
were each stored once per notification, with the released transmit and receive
block; and after the `k`-th notification `mp_block_to_fill` is that pair's
transmit block and `mp_block_to_check` its receive block. -/
theorem streaming_handshake (d : Driver) (s : State)
    (before : List (nrf_drv_i2s_buffers_t × Nat)) (n : nrf_drv_i2s_buffers_t × Nat)
    (h : ∀ m ∈ before ++ [n], m.2 &&& d.NRFX_I2S_STATUS_NEXT_BUFFERS_NEEDED ≠ 0
      ∧ m.1.p_rx_buffer ≠ NULL ∧ d.nrf_drv_i2s_next_buffers_set m.1 = NRF_SUCCESS) :
    ∃ t, run_notifications d (before ++ [n]) s = some t
      ∧ submitted t = submitted s ++ (before ++ [n]).map (fun m => m.1)
      ∧ fill_stores t = fill_stores s ++ (before ++ [n]).map (fun m => m.1.p_tx_buffer)
      ∧ check_stores t = check_stores s ++ (before ++ [n]).map (fun m => m.1.p_rx_buffer)
      ∧ t.mp_block_to_fill = n.1.p_tx_buffer
      ∧ t.mp_block_to_check = n.1.p_rx_buffer := by
  obtain ⟨t, ht, h1, h2, h3⟩ := run_notifications_log d (before ++ [n]) s h
  refine ⟨t, ht, h1, h2, h3, ?_⟩
  obtain ⟨u, hu, -, -, -⟩ := run_notifications_log d before s
    (fun m hm => h m (List.mem_append_left _ hm))
  have hn := h n (List.mem_append_right _ (List.mem_singleton_self n))
  rw [run_notifications_append, hu] at ht
  obtain ⟨released, status⟩ := n
  simp only [Option.some_bind, run_notifications] at ht
  rw [i2s_data_handler_released d released status u hn.1 hn.2.1 hn.2.2] at ht
  simp only [Option.some.injEq] at ht
  subst ht
  exact ⟨rfl, rfl⟩

/-- C8, at a concrete input: four notifications releasing `A, B, A, B`. -/
theorem streaming_handshake_witness :
    ∃ t, run_notifications sample_driver (alternating_script pair_A pair_B 1 4) fresh_state = some t
      ∧ submitted t = [pair_A, pair_B, pair_A, pair_B]
      ∧ t.mp_block_to_fill = pair_B.p_tx_buffer
      ∧ t.mp_block_to_check = pair_B.p_rx_buffer :=
  match streaming_handshake sample_driver fresh_state
      [(pair_A, 1), (pair_B, 1), (pair_A, 1)] (pair_B, 1) (by decide) with
  | ⟨t, ht, hs, _, _, hf, hc⟩ => ⟨t, ht, hs, hf, hc⟩

/-- C9: on a notification with `NEXT_BUFFERS_NEEDED` set whose released pair
has a null receive buffer (the first notification of a session), the handler
submits block pair 1 (`m_buffer_rx[1]`, `m_buffer_tx[1]`), stores
`m_buffer_tx[1]` to `mp_block_to_fill`, and does nothing else:
`mp_block_to_check` and every other variable keep their values, and nothing is
stored to `mp_block_to_check`. -/
theorem first_notification_submits_pair_one (d : Driver) (released : nrf_drv_i2s_buffers_t)
    (status : Nat) (s : State)
    (hstatus : status &&& d.NRFX_I2S_STATUS_NEXT_BUFFERS_NEEDED ≠ 0)
    (hrx : released.p_rx_buffer = NULL)
    (hok : d.nrf_drv_i2s_next_buffers_set
      { p_rx_buffer := d.m_buffer_rx 1, p_tx_buffer := d.m_buffer_tx 1 } = NRF_SUCCESS) :
    ∃ t, i2s_data_handler d (some released) status s = some t
      ∧ t = { s with
          mp_block_to_fill := d.m_buffer_tx 1
          actions := s.actions ++
            [Action.next_buffers_set
              { p_rx_buffer := d.m_buffer_rx 1, p_tx_buffer := d.m_buffer_tx 1 },
             Action.store_block_to_fill (d.m_buffer_tx 1)] }
      ∧ submitted t = submitted s ++
          [{ p_rx_buffer := d.m_buffer_rx 1, p_tx_buffer := d.m_buffer_tx 1 }]
      ∧ t.mp_block_to_fill = d.m_buffer_tx 1
      ∧ t.mp_block_to_check = s.mp_block_to_check
      ∧ check_stores t = check_stores s := by
  refine ⟨_, ?_, rfl, ?_, rfl, rfl, ?_⟩
  · unfold i2s_data_handler
    simp only [if_neg hstatus, if_pos hrx, hok, ne_eq, not_true_eq_false, if_false]
  · simp [submitted]
  · simp [check_stores]

/-- C9, at a concrete input: the first notification of a session. -/
theorem first_notification_submits_pair_one_witness :
    ∃ t, i2s_data_handler sample_driver (some pair_first) 1 fresh_state = some t
      ∧ submitted t = [pair_B]
      ∧ t.mp_block_to_fill = sample_driver.m_buffer_tx 1
      ∧ t.mp_block_to_check = NULL :=
  match first_notification_submits_pair_one sample_driver pair_first 1 fresh_state
      (by decide) rfl rfl with
  | ⟨t, ht, _, hs, hf, hc, _⟩ => ⟨t, ht, hs, hf, hc⟩

/-- C10: for every streaming state and every released pair, a notification
whose status does not have `NRFX_I2S_STATUS_NEXT_BUFFERS_NEEDED` set is a
no-op: the handler returns with the state unchanged, so no buffers are
submitted and `mp_block_to_fill`, `mp_block_to_check` and every other variable
keep their values. -/
theorem notification_without_request_is_noop (d : Driver) (released : nrf_drv_i2s_buffers_t)
    (status : Nat) (s : State)
    (hstatus : status &&& d.NRFX_I2S_STATUS_NEXT_BUFFERS_NEEDED = 0) :
    i2s_data_handler d (some released) status s = some s := by
  unfold i2s_data_handler
  simp only [if_pos hstatus]

/-- C10, at a concrete input: a wind-down notification (status 0) releasing
pair `A`. -/
theorem notification_without_request_is_noop_witness :
    i2s_data_handler sample_driver (some pair_A) 0 sample_state = some sample_state :=
  notification_without_request_is_noop sample_driver pair_A 0 sample_state (by decide)

/-! ## Helper lemmas: frame encoder -/

theorem testBit_two_bits_other (b1 b0 : Bool) (i : Nat) (h22 : i ≠ 22) (h23 : i ≠ 23) :
    Nat.testBit ((if b1 then 0x00800000 else 0) + (if b0 then 0x00400000 else 0)) i = false := by
  by_cases h : i < 24
  · interval_cases i <;> cases b1 <;> cases b0 <;> first | rfl | omega
  · apply Nat.testBit_lt_two_pow
    refine lt_of_lt_of_le ?_ (Nat.pow_le_pow_right (by norm_num) (not_lt.mp h))
    cases b1 <;> cases b0 <;> norm_num

/-- The mask `0x00c00000` selects bits 23 and 22. -/
theorem and_mask_eq (x : Nat) :
    x &&& 0x00c00000 =
      (if x.testBit 23 then 0x00800000 else 0) + (if x.testBit 22 then 0x00400000 else 0) := by
  apply Nat.eq_of_testBit_eq
  intro i
  rw [Nat.testBit_and]
  by_cases h22 : i = 22
  · subst h22
    cases h1 : x.testBit 23 <;> cases h2 : x.testBit 22 <;> simp <;> rfl
  · by_cases h23 : i = 23
    · subst h23
      cases h1 : x.testBit 23 <;> cases h2 : x.testBit 22 <;> simp <;> rfl
    · have hm : Nat.testBit 0x00c00000 i = false := testBit_two_bits_other true true i h22 h23
      rw [hm, Bool.and_false]
      exact (testBit_two_bits_other _ _ i h22 h23).symm

/-- The stored byte packs the symbol of bit 23 in the high nibble and the
symbol of bit 22 in the low nibble. -/
theorem switch_byte_eq (x : Nat) :
    switch_byte x = drive_symbol (x.testBit 23) * 16 + drive_symbol (x.testBit 22) := by
  unfold switch_byte
  rw [and_mask_eq]
  cases x.testBit 23 <;> cases x.testBit 22 <;> decide

/-- Bit `i` of `rgb` after `k` shifts by two is bit `i - 2 * k` of the start
value. -/
theorem testBit_rgb_after (rgb : Nat) (k : Nat) : ∀ i, i < 32 →
    (rgb_after rgb k).testBit i = (decide (2 * k ≤ i) && rgb.testBit (i - 2 * k)) := by
  induction k with
  | zero => intro i _; simp [rgb_after]
  | succ k ih =>
    intro i hi
    simp only [rgb_after, u32, I2S_WS2812B_DRIVE_BUF_SIZE_PER_LED]
    rw [show (4294967296 : Nat) = 2 ^ 32 by norm_num, Nat.testBit_mod_two_pow,
      Nat.testBit_shiftLeft]
    by_cases h2 : 2 ≤ i
    · rw [ih (i - 2) (by omega)]
      have e : i - 2 - 2 * k = i - 2 * (k + 1) := by omega
      rw [e]
      by_cases h3 : 2 * (k + 1) ≤ i
      · have h4 : 2 * k ≤ i - 2 := by omega
        simp [hi, h2, h3, h4]
      · have h4 : ¬ 2 * k ≤ i - 2 := by omega
        simp [hi, h2, h3, h4]
    · have h3 : ¬ 2 * (k + 1) ≤ i := by omega
      simp [hi, h2, h3]

theorem rgb_after_add (rgb : Nat) (a : Nat) : ∀ b, rgb_after (rgb_after rgb a) b = rgb_after rgb (a + b)
  | 0 => rfl
  | b + 1 => by
    show u32 (rgb_after (rgb_after rgb a) b <<< _) = u32 (rgb_after rgb (a + b) <<< _)
    rw [rgb_after_add rgb a b]

/-- Two iterations of the inner loop, started with offset `+1`. -/
theorem fill_inner_two (n : Nat) (c : FillLocals) (h : c.offset = 1) :
    fill_inner (n + 2) c =
      fill_inner n
        { rgb := rgb_after c.rgb 2
          pTX := c.pTX + 2
          offset := 1
          tx_bytes := Function.update (Function.update c.tx_bytes (c.pTX + 1) (switch_byte c.rgb))
            c.pTX (switch_byte (rgb_after c.rgb 1))
          tx_stores := c.tx_stores ++ [c.pTX + 1, c.pTX] } := by
  show fill_inner (n + 1 + 1) c = _
  rw [fill_inner, fill_inner]
  have e1 : c.pTX + 1 + -1 = c.pTX := by ring
  have e2 : c.pTX + 1 + 1 = c.pTX + 2 := by ring
  simp only [h, e1, e2, rgb_after, neg_neg, List.append_assoc, List.singleton_append]

theorem step_of_byte_add_two (j : Nat) : step_of_byte (j + 2) = step_of_byte j + 2 := by
  unfold step_of_byte
  split_ifs <;> omega

/-- The inner loop run for `2 * m` iterations from offset `+1`: it ends with
offset `+1` and the pointer advanced by `2 * m`, byte `j < 2 * m` past the
start pointer holds the byte of step `step_of_byte j`, and every other byte is
unchanged. -/
theorem fill_inner_even (m : Nat) : ∀ c : FillLocals, c.offset = 1 →
    (fill_inner (2 * m) c).offset = 1
    ∧ (fill_inner (2 * m) c).pTX = c.pTX + 2 * (m : Int)
    ∧ (∀ j : Nat, j < 2 * m →
        (fill_inner (2 * m) c).tx_bytes (c.pTX + (j : Int))
          = switch_byte (rgb_after c.rgb (step_of_byte j)))
    ∧ (∀ x : Int, (x < c.pTX ∨ c.pTX + 2 * (m : Int) ≤ x) →
        (fill_inner (2 * m) c).tx_bytes x = c.tx_bytes x) := by
  induction m with
  | zero =>
    intro c h
    refine ⟨h, by simp [fill_inner], fun j hj => by omega, fun x _ => rfl⟩
  | succ m ih =>
    intro c h
    have e : 2 * (m + 1) = 2 * m + 2 := by ring
    rw [e, fill_inner_two _ c h]
    obtain ⟨h1, h2, h3, h4⟩ := ih
      { rgb := rgb_after c.rgb 2
        pTX := c.pTX + 2
        offset := 1
        tx_bytes := Function.update (Function.update c.tx_bytes (c.pTX + 1) (switch_byte c.rgb))
          c.pTX (switch_byte (rgb_after c.rgb 1))
        tx_stores := c.tx_stores ++ [c.pTX + 1, c.pTX] } rfl
    simp only at h2 h3 h4
    refine ⟨h1, ?_, ?_, ?_⟩
    · rw [h2]
      push_cast
      ring
    · intro j hj
      by_cases hj2 : j < 2
      · rw [h4 _ (Or.inl (by omega))]
        rcases Nat.lt_succ_iff_lt_or_eq.mp hj2 with hlt | heq
        · have hj0 : j = 0 := by omega
          subst hj0
          have e0 : c.pTX + ((0 : Nat) : Int) = c.pTX := by omega
          rw [e0, Function.update_same]
          rfl
        · subst heq
          have hne : c.pTX + ((1 : Nat) : Int) ≠ c.pTX := by omega
          have e1 : c.pTX + ((1 : Nat) : Int) = c.pTX + 1 := by omega
          rw [Function.update_noteq hne, e1, Function.update_same]
          rfl
      · have ej : c.pTX + (j : Int) = c.pTX + 2 + ((j - 2 : Nat) : Int) := by omega
        rw [ej, h3 (j - 2) (by omega), rgb_after_add]
        have es : 2 + step_of_byte (j - 2) = step_of_byte j := by
          have := step_of_byte_add_two (j - 2)
          have e2 : j - 2 + 2 = j := by omega
          rw [e2] at this
          omega
        rw [es]
    · intro x hx
      rw [h4 x (by omega)]
      have hx1 : x ≠ c.pTX := by omega
      have hx2 : x ≠ c.pTX + 1 := by omega
      rw [Function.update_noteq hx1, Function.update_noteq hx2]

theorem fill_outer_succ (pixels : Nat → LEDDRIVERPIXEL) (m_brightness n pPixel : Nat)
    (c : FillLocals) :
    fill_outer pixels m_brightness (n + 1) pPixel c =
      fill_outer pixels m_brightness n (pPixel + 1)
        (fill_inner (2 * 6) { c with rgb := pixel_rgb (pixels pPixel) m_brightness }) := rfl

/-- The outer loop run for `n` pixels from offset `+1`: byte `j < 12` of pixel
`q < n` holds the byte of step `step_of_byte j` of that pixel, and every byte
outside the `12 * n` bytes past the start pointer is unchanged. -/
theorem fill_outer_spec (pixels : Nat → LEDDRIVERPIXEL) (m_brightness : Nat) (n : Nat) :
    ∀ (pPixel : Nat) (c : FillLocals), c.offset = 1 →
    (fill_outer pixels m_brightness n pPixel c).offset = 1
    ∧ (fill_outer pixels m_brightness n pPixel c).pTX = c.pTX + 12 * (n : Int)
    ∧ (∀ q j : Nat, q < n → j < 12 →
        (fill_outer pixels m_brightness n pPixel c).tx_bytes (c.pTX + 12 * (q : Int) + (j : Int))
          = switch_byte (rgb_after (pixel_rgb (pixels (pPixel + q)) m_brightness)
              (step_of_byte j)))
    ∧ (∀ x : Int, (x < c.pTX ∨ c.pTX + 12 * (n : Int) ≤ x) →
        (fill_outer pixels m_brightness n pPixel c).tx_bytes x = c.tx_bytes x) := by
  induction n with
  | zero =>
    intro pPixel c h
    refine ⟨h, by simp [fill_outer], fun q j hq _ => by omega, fun x _ => rfl⟩
  | succ n ih =>
    intro pPixel c h
    rw [fill_outer_succ]
    obtain ⟨i1, i2, i3, i4⟩ := fill_inner_even 6
      { c with rgb := pixel_rgb (pixels pPixel) m_brightness } h
    obtain ⟨h1, h2, h3, h4⟩ := ih (pPixel + 1) _ i1
    simp only at i2 i3 i4
    rw [i2] at h2 h3 h4
    refine ⟨h1, ?_, ?_, ?_⟩
    · rw [h2]
      push_cast
      ring
    · intro q j hq hj
      rcases Nat.eq_zero_or_pos q with hq0 | hqpos
      · subst hq0
        have e0 : c.pTX + 12 * ((0 : Nat) : Int) + (j : Int) = c.pTX + (j : Int) := by
          push_cast; ring
        rw [e0, h4 _ (Or.inl (by push_cast; omega)), i3 j (by omega)]
        rfl
      · have e1 : c.pTX + 12 * (q : Int) + (j : Int)
            = c.pTX + 2 * ((6 : Nat) : Int) + 12 * ((q - 1 : Nat) : Int) + (j : Int) := by
          push_cast
          omega
        have e2 : pPixel + 1 + (q - 1) = pPixel + q := by omega
        rw [e1, h3 (q - 1) j (by omega) hj, e2]
    · intro x hx
      rw [h4 x (by push_cast at hx ⊢; omega), i4 x (by push_cast at hx ⊢; omega)]

/-- What `FillI2SDriverBuffer` leaves in the transmit buffer: byte `j < 12` of
pixel `q < m_numPixels` holds the byte of step `step_of_byte j`; every byte at
an offset outside `[0, 12 * m_numPixels)` is unchanged. -/
theorem FillI2SDriverBuffer_bytes (s : LedState) :
    (∀ q j : Nat, q < s.m_numPixels → j < 12 →
      (FillI2SDriverBuffer s).tx_bytes (((12 * q + j : Nat) : Int))
        = switch_byte (rgb_after (pixel_rgb (s.pixels q) s.m_brightness) (step_of_byte j)))
    ∧ (∀ x : Int, (x < 0 ∨ 12 * (s.m_numPixels : Int) ≤ x) →
      (FillI2SDriverBuffer s).tx_bytes x = s.tx_bytes x) := by
  obtain ⟨_, _, h3, h4⟩ := fill_outer_spec s.pixels s.m_brightness s.m_numPixels 0
    { rgb := 0, pTX := 0, offset := 1, tx_bytes := s.tx_bytes, tx_stores := s.tx_stores } rfl
  simp only at h3 h4
  constructor
  · intro q j hq hj
    have e : ((12 * q + j : Nat) : Int) = 0 + 12 * (q : Int) + (j : Int) := by
      push_cast; ring
    have := h3 q j hq hj
    rw [Nat.zero_add] at this
    rw [e]
    exact this
  · intro x hx
    exact h4 x (by omega)

theorem xor_one_lt (k : Nat) (hk : k < 12) : k ^^^ 1 < 12 := by
  interval_cases k <;> decide

theorem step_of_byte_xor_one (k : Nat) (hk : k < 12) : step_of_byte (k ^^^ 1) = k := by
  interval_cases k <;> decide

theorem drive_symbol_lt (b : Bool) : drive_symbol b < 16 := by
  cases b <;> decide

theorem testBit_u32 (x i : Nat) (hi : i < 32) : (u32 x).testBit i = x.testBit i := by
  unfold u32
  rw [show (4294967296 : Nat) = 2 ^ 32 by norm_num, Nat.testBit_mod_two_pow]
  simp [hi]

/-- The variables `neopixelWrite` leaves: the buffer size, the recorded driver
call, and the transmit bytes of `FillI2SDriverBuffer`. -/
theorem neopixelWrite_eq (s : LedState) :
    (neopixelWrite s).m_i2sBufferSize = (3 * s.m_numPixels + RESET_BITS) % 65536
    ∧ (neopixelWrite s).started = some
        { buffers := { p_rx_buffer := NULL, p_tx_buffer := s.m_pTXBuffer }
          buffer_size := (3 * s.m_numPixels + RESET_BITS) % 65536
          flags := 0 }
    ∧ (neopixelWrite s).tx_bytes = (FillI2SDriverBuffer s).tx_bytes := by
  have e : u16 (3 * (s.m_numPixels : Int) + (RESET_BITS : Int))
      = (3 * s.m_numPixels + RESET_BITS) % 65536 := by
    unfold u16
    omega
  refine ⟨?_, ?_, rfl⟩
  · rw [← e]
    rfl
  · rw [← e]
    rfl

/-- The length in bytes of the frame `neopixelWrite` hands to the driver. -/
theorem frame_length_neopixelWrite (s : LedState) :
    frame_length (neopixelWrite s) = 4 * ((3 * s.m_numPixels + RESET_BITS) % 65536) := by
  unfold frame_length
  rw [(neopixelWrite_eq s).2.1]
  rfl

/-! ## The frame encoder claims -/

/-- C1: after `FillI2SDriverBuffer`, for every pixel `p < N` and every step
`k` in `0..11`, the byte at index `12 * p + (k XOR 1)` of the drive buffer has
as high nibble the drive symbol of bit `23 - 2 * k` and as low nibble the drive
symbol of bit `22 - 2 * k` of the word `W = (g' << 16) | (r' << 8) | b'`, where
`c' = (c * brightness) >> 8` and the drive symbol is 0x8 for a 0 bit and 0xE
for a 1 bit. -/
theorem drive_buffer_layout (s : LedState) (p k : Nat)
    (hp : p < s.m_numPixels) (hk : k < 12) :
    (FillI2SDriverBuffer s).tx_bytes ((12 * p + (k ^^^ 1) : Nat) : Int) / 16
      = drive_symbol
          (((((s.pixels p).g * s.m_brightness) >>> 8) <<< 16
            ||| (((s.pixels p).r * s.m_brightness) >>> 8) <<< 8
            ||| (((s.pixels p).b * s.m_brightness) >>> 8)).testBit (23 - 2 * k))
    ∧ (FillI2SDriverBuffer s).tx_bytes ((12 * p + (k ^^^ 1) : Nat) : Int) % 16
      = drive_symbol
          (((((s.pixels p).g * s.m_brightness) >>> 8) <<< 16
            ||| (((s.pixels p).r * s.m_brightness) >>> 8) <<< 8
            ||| (((s.pixels p).b * s.m_brightness) >>> 8)).testBit (22 - 2 * k))
    ∧ drive_symbol false = 0x8 ∧ drive_symbol true = 0xE := by
  have hb := (FillI2SDriverBuffer_bytes s).1 p (k ^^^ 1) hp (xor_one_lt k hk)
  rw [step_of_byte_xor_one k hk, switch_byte_eq, testBit_rgb_after _ _ 23 (by omega),
    testBit_rgb_after _ _ 22 (by omega)] at hb
  have h23 : 2 * k ≤ 23 := by omega
  have h22 : 2 * k ≤ 22 := by omega
  simp only [h23, h22, decide_True, Bool.true_and] at hb
  unfold pixel_rgb at hb
  rw [testBit_u32 _ _ (by omega), testBit_u32 _ _ (by omega)] at hb
  rw [hb]
  have l1 := drive_symbol_lt
    (((((s.pixels p).g * s.m_brightness) >>> 8) <<< 16
      ||| (((s.pixels p).r * s.m_brightness) >>> 8) <<< 8
      ||| (((s.pixels p).b * s.m_brightness) >>> 8)).testBit (22 - 2 * k))
  refine ⟨by omega, by omega, rfl, rfl⟩

/-- C1, at a concrete input: step 5 of pixel 0 of the red/green/blue sample at
brightness 128 stores its byte at index 4. -/
theorem drive_buffer_layout_witness :
    (FillI2SDriverBuffer led_boot).tx_bytes 4 / 16 = 0xE
    ∧ (FillI2SDriverBuffer led_boot).tx_bytes 4 % 16 = 0xE :=
  have h := drive_buffer_layout led_boot 0 5 (by decide) (by decide)
  ⟨h.1, h.2.1⟩

/-- C2, refuted as stated: for one pixel the frame handed to the driver is
`3 * 1 + 6 = 9` words, 36 bytes, and not `3 * 1 * 12 / 2 + 6 = 24` bytes. -/
theorem frame_length_one_pixel :
    led_one_pixel.m_numPixels = 1
    ∧ frame_length (neopixelWrite led_one_pixel) = 36
    ∧ frame_length (neopixelWrite led_one_pixel)
        ≠ 3 * led_one_pixel.m_numPixels * I2S_WS2812B_DRIVE_BUF_SIZE_PER_LED / 2 + RESET_BITS := by
  refine ⟨rfl, ?_, ?_⟩
  · rw [frame_length_neopixelWrite]
    decide
  · rw [frame_length_neopixelWrite]
    decide

/-- C2, amended: for every pixel count `N`, `neopixelWrite` passes the transmit
buffer to the driver with length `m_i2sBufferSize = (3 * N + RESET_BITS) mod
2^16` 32-bit words, so the frame is `4 * m_i2sBufferSize` bytes long: `12 * N +
24` bytes whenever `3 * N + 6` fits 16 bits (60 bytes for `N = 3`).  Among the
16-bit pixel counts this equals `3 * N * 12 / 2 + 6 = 18 * N + 6` for `N = 3`
only. -/
theorem frame_length_in_words (s : LedState) :
    (neopixelWrite s).started = some
        { buffers := { p_rx_buffer := NULL, p_tx_buffer := s.m_pTXBuffer }
          buffer_size := (neopixelWrite s).m_i2sBufferSize
          flags := 0 }
    ∧ (neopixelWrite s).m_i2sBufferSize = (3 * s.m_numPixels + RESET_BITS) % 65536
    ∧ frame_length (neopixelWrite s) = 4 * ((3 * s.m_numPixels + RESET_BITS) % 65536)
    ∧ (3 * s.m_numPixels + RESET_BITS < 65536 →
        frame_length (neopixelWrite s) = 12 * s.m_numPixels + 24)
    ∧ (s.m_numPixels = 3 → frame_length (neopixelWrite s) = 60)
    ∧ (s.m_numPixels < 65536 →
        (frame_length (neopixelWrite s)
            = 3 * s.m_numPixels * I2S_WS2812B_DRIVE_BUF_SIZE_PER_LED / 2 + RESET_BITS
          ↔ s.m_numPixels = 3)) := by
  obtain ⟨h1, h2, _⟩ := neopixelWrite_eq s
  have hlen := frame_length_neopixelWrite s
  refine ⟨by rw [h1]; exact h2, h1, hlen, ?_, ?_, ?_⟩
  · intro h
    rw [hlen]
    unfold RESET_BITS at h ⊢
    omega
  · intro h
    rw [hlen, h]
    rfl
  · intro h
    rw [hlen]
    unfold RESET_BITS I2S_WS2812B_DRIVE_BUF_SIZE_PER_LED
    omega

/-- C2 amended, at concrete inputs: the default three pixels give 60 bytes, a
single pixel gives 36. -/
theorem frame_length_in_words_witness :
    frame_length (neopixelWrite led_boot) = 60
    ∧ frame_length (neopixelWrite led_one_pixel) = 12 * 1 + 24 :=
  ⟨(frame_length_in_words led_boot).2.2.2.2.1 rfl,
   (frame_length_in_words led_one_pixel).2.2.2.1 (by decide)⟩

/-- C3, the code at the failing input: `i2s_init` obtains the transmit buffer
from `malloc` and never clears it, and `FillI2SDriverBuffer` stores only to the
first `12 * N` bytes, so when the heap block holds 0xFF the last `RESET_BITS`
bytes of the 60-byte frame that `neopixelWrite` hands to the driver are 0xFF,
not zero. -/
theorem reset_region_keeps_heap_bytes :
    i2s_init 0x20004000 (fun _ => 0xFF) NRF_SUCCESS led_boot = some led_after_init
    ∧ frame_length (neopixelWrite led_after_init) = 60
    ∧ (frame (neopixelWrite led_after_init)).drop
        (frame_length (neopixelWrite led_after_init) - RESET_BITS)
      = [0xFF, 0xFF, 0xFF, 0xFF, 0xFF, 0xFF] := by
  have hlen : frame_length (neopixelWrite led_after_init) = 60 := by
    rw [frame_length_neopixelWrite]
    rfl
  have hkeep : ∀ x : Int, 36 ≤ x → (neopixelWrite led_after_init).tx_bytes x = 0xFF := by
    intro x hx
    rw [(neopixelWrite_eq led_after_init).2.2,
      (FillI2SDriverBuffer_bytes led_after_init).2 x (Or.inr (by
        have : led_after_init.m_numPixels = 3 := rfl
        rw [this]
        omega))]
    rfl
  refine ⟨rfl, hlen, ?_⟩
  unfold frame
  rw [hlen]
  simp only [RESET_BITS, List.range, List.range.loop, List.map, List.drop, Nat.reduceSub]
  simp only [Nat.cast_ofNat]
  rw [hkeep 54 (by omega), hkeep 55 (by omega), hkeep 56 (by omega), hkeep 57 (by omega),
    hkeep 58 (by omega), hkeep 59 (by omega)]

/-! ## Helper lemmas: scaled channels and single bytes -/

theorem pixel_rgb_eq_color_word (p : LEDDRIVERPIXEL) (m_brightness : Nat) :
    pixel_rgb p m_brightness = u32 (color_word p m_brightness) := rfl

theorem step_of_byte_lt (j : Nat) (hj : j < 12) : step_of_byte j < 12 := by
  unfold step_of_byte
  split_ifs <;> omega

/-- The byte at an offset inside the colour region, by pixel and byte index. -/
theorem FillI2SDriverBuffer_byte_at (s : LedState) (x : Int) (h0 : 0 ≤ x)
    (h1 : x < 12 * (s.m_numPixels : Int)) :
    (FillI2SDriverBuffer s).tx_bytes x
      = switch_byte (rgb_after (pixel_rgb (s.pixels (x.toNat / 12)) s.m_brightness)
          (step_of_byte (x.toNat % 12))) := by
  have hx : x = ((12 * (x.toNat / 12) + x.toNat % 12 : Nat) : Int) := by omega
  have hq : x.toNat / 12 < s.m_numPixels := by omega
  have hb := (FillI2SDriverBuffer_bytes s).1 (x.toNat / 12) (x.toNat % 12) hq (by omega)
  rw [← hx] at hb
  exact hb

/-- The byte of one step in terms of the bits of the colour word. -/
theorem switch_byte_rgb_after (p : LEDDRIVERPIXEL) (m_brightness k : Nat) (hk : k < 12) :
    switch_byte (rgb_after (pixel_rgb p m_brightness) k)
      = drive_symbol ((color_word p m_brightness).testBit (23 - 2 * k)) * 16
        + drive_symbol ((color_word p m_brightness).testBit (22 - 2 * k)) := by
  have h23 : 2 * k ≤ 23 := by omega
  have h22 : 2 * k ≤ 22 := by omega
  rw [switch_byte_eq, testBit_rgb_after _ _ 23 (by omega), testBit_rgb_after _ _ 22 (by omega),
    pixel_rgb_eq_color_word, testBit_u32 _ _ (by omega), testBit_u32 _ _ (by omega)]
  simp only [h23, h22, decide_True, Bool.true_and]

theorem rgb_after_zero (k : Nat) : rgb_after 0 k = 0 := by
  induction k with
  | zero => rfl
  | succ k ih =>
    show u32 (rgb_after 0 k <<< _) = 0
    rw [ih]
    rfl

theorem scaled_zero_brightness (c : Nat) : scaled c 0 = 0 := by
  simp [scaled]

theorem scaled_zero_channel (m_brightness : Nat) : scaled 0 m_brightness = 0 := by
  simp [scaled]

theorem pixel_rgb_zero_brightness (p : LEDDRIVERPIXEL) : pixel_rgb p 0 = 0 := by
  rw [pixel_rgb_eq_color_word]
  unfold color_word
  rw [scaled_zero_brightness, scaled_zero_brightness, scaled_zero_brightness]
  rfl

/-- The 12 bytes of pixel `q`, each as the byte of its step. -/
theorem pixel_bytes_eq (s : LedState) (q : Nat) (hq : q < s.m_numPixels) :
    pixel_bytes s q = (List.range 12).map (fun j =>
      switch_byte (rgb_after (pixel_rgb (s.pixels q) s.m_brightness) (step_of_byte j))) := by
  unfold pixel_bytes I2S_WS2812B_DRIVE_BUF_SIZE_PER_LED
  apply List.map_congr_left
  intro j hj
  exact (FillI2SDriverBuffer_bytes s).1 q j hq (List.mem_range.mp hj)

/-! ## More frame encoder claims -/

/-- C12: with brightness 0, for every pixel array and pixel count `N`, every
byte of the colour region (indices `0 .. 12 * N - 1` of the drive buffer) that
`FillI2SDriverBuffer` leaves equals 0x88, the byte of two "pattern 0"
symbols. -/
theorem zero_brightness_all_pattern_0 (s : LedState) (x : Int)
    (hbr : s.m_brightness = 0) (h0 : 0 ≤ x) (h1 : x < 12 * (s.m_numPixels : Int)) :
    (FillI2SDriverBuffer s).tx_bytes x = 0x88
    ∧ 0x88 = drive_symbol false * 16 + drive_symbol false := by
  rw [FillI2SDriverBuffer_byte_at s x h0 h1, hbr, pixel_rgb_zero_brightness, rgb_after_zero]
  exact ⟨by decide, by decide⟩

/-- C12, at a concrete input: the red/green/blue sample at brightness 0. -/
theorem zero_brightness_all_pattern_0_witness :
    (FillI2SDriverBuffer led_dark).tx_bytes 17 = 0x88 :=
  (zero_brightness_all_pattern_0 led_dark 17 rfl (by decide) (by decide)).1

/-- C14: the end-to-end scenario.  For 3 pixels, brightness 128 and pixels
`(255,0,0)`, `(0,255,0)`, `(0,0,255)`, the frame `neopixelWrite` builds is 60
bytes long; bytes 0-3 (green of pixel 0) are all 0x88; the red value is
`(255 * 128) >> 8 = 127`, emitted at steps 4..7 as 0x8E, 0xEE, 0xEE, 0xEE, and
stored in bytes 4-7 with each pair exchanged: 0xEE, 0x8E, 0xEE, 0xEE. -/
theorem end_to_end_scenario (s : LedState)
    (hn : s.m_numPixels = 3) (hbr : s.m_brightness = 128)
    (hp0 : s.pixels 0 = { r := 255, g := 0, b := 0 })
    (hp1 : s.pixels 1 = { r := 0, g := 255, b := 0 })
    (hp2 : s.pixels 2 = { r := 0, g := 0, b := 255 }) :
    frame_length (neopixelWrite s) = 60
    ∧ (frame (neopixelWrite s)).take 8 = [0x88, 0x88, 0x88, 0x88, 0xEE, 0x8E, 0xEE, 0xEE]
    ∧ scaled (s.pixels 0).r s.m_brightness = 127
    ∧ [4, 5, 6, 7].map (fun k => switch_byte (rgb_after (pixel_rgb (s.pixels 0) s.m_brightness) k))
        = [0x8E, 0xEE, 0xEE, 0xEE]
    ∧ pixel_bytes s 0
        = [0x88, 0x88, 0x88, 0x88, 0xEE, 0x8E, 0xEE, 0xEE, 0x88, 0x88, 0x88, 0x88]
    ∧ pixel_bytes s 1
        = [0xEE, 0x8E, 0xEE, 0xEE, 0x88, 0x88, 0x88, 0x88, 0x88, 0x88, 0x88, 0x88]
    ∧ pixel_bytes s 2
        = [0x88, 0x88, 0x88, 0x88, 0x88, 0x88, 0x88, 0x88, 0xEE, 0x8E, 0xEE, 0xEE] := by
  have hlen : frame_length (neopixelWrite s) = 60 := by
    rw [frame_length_neopixelWrite, hn]
    rfl
  have hb : ∀ q j : Nat, q < 3 → j < 12 →
      (neopixelWrite s).tx_bytes ((12 * q + j : Nat) : Int)
        = switch_byte (rgb_after (pixel_rgb (s.pixels q) 128) (step_of_byte j)) := by
    intro q j hq hj
    rw [(neopixelWrite_eq s).2.2, (FillI2SDriverBuffer_bytes s).1 q j (by omega) hj, hbr]
  refine ⟨hlen, ?_, ?_, ?_, ?_, ?_, ?_⟩
  · unfold frame
    rw [hlen]
    simp only [List.range, List.range.loop, List.map, List.take]
    have e0 := hb 0
    rw [hp0] at e0
    rw [e0 0 (by omega) (by omega), e0 1 (by omega) (by omega), e0 2 (by omega) (by omega),
      e0 3 (by omega) (by omega), e0 4 (by omega) (by omega), e0 5 (by omega) (by omega),
      e0 6 (by omega) (by omega), e0 7 (by omega) (by omega)]
    decide
  · rw [hp0, hbr]
    decide
  · rw [hp0, hbr]
    decide
  · rw [pixel_bytes_eq s 0 (by omega), hp0, hbr]
    decide
  · rw [pixel_bytes_eq s 1 (by omega), hp1, hbr]
    decide
  · rw [pixel_bytes_eq s 2 (by omega), hp2, hbr]
    decide

/-- C14, at a concrete input: the start-up sample, which holds exactly these
pixels. -/
theorem end_to_end_scenario_witness :
    frame_length (neopixelWrite led_boot) = 60
    ∧ (frame (neopixelWrite led_boot)).take 8
        = [0x88, 0x88, 0x88, 0x88, 0xEE, 0x8E, 0xEE, 0xEE] :=
  have h := end_to_end_scenario led_boot rfl rfl rfl rfl rfl
  ⟨h.1, h.2.1⟩

/-! ## Helper lemmas: the bits of the colour word -/

theorem scaled_le (c m_brightness : Nat) (hc : c < 256) (hbr : m_brightness < 256) :
    scaled c m_brightness ≤ 254 := by
  unfold scaled
  rw [Nat.shiftRight_eq_div_pow]
  have h : c * m_brightness ≤ 255 * 255 := Nat.mul_le_mul (by omega) (by omega)
  omega

theorem scaled_255 (c : Nat) (hc : c < 256) : scaled c 255 = c - 1 := by
  unfold scaled
  rw [Nat.shiftRight_eq_div_pow]
  omega

theorem testBit_high_of_lt (x i : Nat) (hx : x < 256) (hi : 8 ≤ i) : x.testBit i = false :=
  Nat.testBit_lt_two_pow
    (lt_of_lt_of_le hx (Nat.pow_le_pow_right (by norm_num : 0 < 2) hi : 2 ^ 8 ≤ 2 ^ i))

theorem testBit_color_word (p : LEDDRIVERPIXEL) (m_brightness i : Nat) :
    (color_word p m_brightness).testBit i
      = ((decide (16 ≤ i) && (scaled p.g m_brightness).testBit (i - 16))
        || (decide (8 ≤ i) && (scaled p.r m_brightness).testBit (i - 8))
        || (scaled p.b m_brightness).testBit i) := by
  unfold color_word
  rw [Nat.testBit_or, Nat.testBit_or, Nat.testBit_shiftLeft, Nat.testBit_shiftLeft]

/-- The three scaled channels occupy disjoint bytes of the colour word. -/
theorem testBit_color_word_channels (p : LEDDRIVERPIXEL) (m_brightness i : Nat)
    (hr : scaled p.r m_brightness < 256)
    (hb : scaled p.b m_brightness < 256) (hi : i < 8) :
    (color_word p m_brightness).testBit (16 + i) = (scaled p.g m_brightness).testBit i
    ∧ (color_word p m_brightness).testBit (8 + i) = (scaled p.r m_brightness).testBit i
    ∧ (color_word p m_brightness).testBit i = (scaled p.b m_brightness).testBit i := by
  refine ⟨?_, ?_, ?_⟩
  · rw [testBit_color_word, testBit_high_of_lt _ (16 + i - 8) hr (by omega),
      testBit_high_of_lt _ (16 + i) hb (by omega)]
    have e : 16 + i - 16 = i := by omega
    have h16 : 16 ≤ 16 + i := by omega
    simp [e, h16]
  · rw [testBit_color_word, testBit_high_of_lt _ (8 + i) hb (by omega)]
    have e : 8 + i - 8 = i := by omega
    have h16 : ¬ 16 ≤ 8 + i := by omega
    have h8 : 8 ≤ 8 + i := by omega
    simp [e, h16, h8]
  · rw [testBit_color_word]
    have h16 : ¬ 16 ≤ i := by omega
    have h8 : ¬ 8 ≤ i := by omega
    simp [h16, h8]

theorem color_word_lt (p : LEDDRIVERPIXEL) (m_brightness i : Nat)
    (hg : scaled p.g m_brightness < 256) (hr : scaled p.r m_brightness < 256)
    (hb : scaled p.b m_brightness < 256) (hi : 24 ≤ i) :
    (color_word p m_brightness).testBit i = false := by
  rw [testBit_color_word, testBit_high_of_lt _ (i - 16) hg (by omega),
    testBit_high_of_lt _ (i - 8) hr (by omega), testBit_high_of_lt _ i hb (by omega)]
  simp

/-- The colour word as a sum: the scaled channels do not overlap. -/
theorem color_word_eq_add (p : LEDDRIVERPIXEL) (m_brightness : Nat)
    (hr : scaled p.r m_brightness < 256) (hb : scaled p.b m_brightness < 256) :
    color_word p m_brightness
      = scaled p.g m_brightness * 65536 + scaled p.r m_brightness * 256
        + scaled p.b m_brightness := by
  unfold color_word
  rw [Nat.shiftLeft_eq, Nat.shiftLeft_eq]
  have h1 : scaled p.r m_brightness * 2 ^ 8 < 2 ^ 16 := by omega
  have e1 := Nat.mul_add_lt_is_or h1 (scaled p.g m_brightness)
  have h2 : scaled p.b m_brightness < 2 ^ 8 := by omega
  have e2 := Nat.mul_add_lt_is_or h2 (2 ^ 8 * scaled p.g m_brightness + scaled p.r m_brightness)
  have e3 : scaled p.g m_brightness * 2 ^ 16 = 2 ^ 16 * scaled p.g m_brightness := by ring
  have e4 : 2 ^ 16 * scaled p.g m_brightness + scaled p.r m_brightness * 2 ^ 8
      = 2 ^ 8 * (2 ^ 8 * scaled p.g m_brightness + scaled p.r m_brightness) := by ring
  rw [e3, ← e1, e4, ← e2]
  ring

theorem drive_symbol_pair_inj (a b c d : Bool)
    (h : drive_symbol a * 16 + drive_symbol b = drive_symbol c * 16 + drive_symbol d) :
    a = c ∧ b = d := by
  revert h
  cases a <;> cases b <;> cases c <;> cases d <;> decide

theorem step_of_byte_step_of_byte (k : Nat) : step_of_byte (step_of_byte k) = k := by
  unfold step_of_byte
  split_ifs <;> omega

/-- Two pixels whose 12 steps store the same bytes have the same colour word
bits below bit 24. -/
theorem color_word_bits_of_bytes (p1 p2 : LEDDRIVERPIXEL) (br1 br2 : Nat)
    (h : ∀ k, k < 12 → switch_byte (rgb_after (pixel_rgb p1 br1) k)
      = switch_byte (rgb_after (pixel_rgb p2 br2) k))
    (i : Nat) (hi : i < 24) :
    (color_word p1 br1).testBit i = (color_word p2 br2).testBit i := by
  have hk := h ((23 - i) / 2) (by omega)
  rw [switch_byte_rgb_after _ _ _ (by omega), switch_byte_rgb_after _ _ _ (by omega)] at hk
  obtain ⟨h1, h2⟩ := drive_symbol_pair_inj _ _ _ _ hk
  rcases Nat.mod_two_eq_zero_or_one i with he | ho
  · have e : 22 - 2 * ((23 - i) / 2) = i := by omega
    rw [e] at h2
    exact h2
  · have e : 23 - 2 * ((23 - i) / 2) = i := by omega
    rw [e] at h1
    exact h1

theorem step_of_byte_lt_four (j : Nat) (hj : j < 4) : step_of_byte j < 4 := by
  unfold step_of_byte
  split_ifs <;> omega

theorem step_of_byte_ge_eight (j : Nat) (h8 : 8 ≤ j) : 8 ≤ step_of_byte j := by
  unfold step_of_byte
  split_ifs <;> omega

theorem step_of_byte_middle (m : Nat) (hm : m < 4) : step_of_byte (4 + (m ^^^ 1)) = 4 + m := by
  interval_cases m <;> decide

/-- The colour word of a pixel whose green and blue channels are 0. -/
theorem testBit_color_word_red_only (p : LEDDRIVERPIXEL) (m_brightness i : Nat)
    (hg : p.g = 0) (hb : p.b = 0) :
    (color_word p m_brightness).testBit i
      = (decide (8 ≤ i) && (scaled p.r m_brightness).testBit (i - 8)) := by
  rw [testBit_color_word, hg, hb, scaled_zero_channel]
  simp

/-- C13: channel order.  For every pixel whose green and blue channels are 0
(whatever its red channel), bytes 0-3 (green) and bytes 8-11 (blue) of the
pixel's 12-byte encoding are all 0x88, and the drive pattern of the scaled red
value `(r * brightness) >> 8` occupies bytes 4-7: step `4 + m` stores, at byte
`4 + (m XOR 1)`, the symbols of bits `7 - 2 * m` and `6 - 2 * m` of that
value. -/
theorem channel_order_red_second (s : LedState) (q : Nat)
    (hq : q < s.m_numPixels) (hg : (s.pixels q).g = 0) (hb : (s.pixels q).b = 0)
    (hr : (s.pixels q).r < 256) (hbr : s.m_brightness < 256) :
    (∀ j, j < 4 →
      (FillI2SDriverBuffer s).tx_bytes ((12 * q + j : Nat) : Int) = 0x88
      ∧ (FillI2SDriverBuffer s).tx_bytes ((12 * q + (8 + j) : Nat) : Int) = 0x88)
    ∧ (∀ m, m < 4 →
      (FillI2SDriverBuffer s).tx_bytes ((12 * q + (4 + (m ^^^ 1)) : Nat) : Int) / 16
        = drive_symbol ((scaled (s.pixels q).r s.m_brightness).testBit (7 - 2 * m))
      ∧ (FillI2SDriverBuffer s).tx_bytes ((12 * q + (4 + (m ^^^ 1)) : Nat) : Int) % 16
        = drive_symbol ((scaled (s.pixels q).r s.m_brightness).testBit (6 - 2 * m))) := by
  have hr8 : scaled (s.pixels q).r s.m_brightness < 256 := by
    have := scaled_le _ _ hr hbr
    omega
  constructor
  · intro j hj
    constructor
    · have hk := step_of_byte_lt_four j hj
      rw [(FillI2SDriverBuffer_bytes s).1 q j hq (by omega),
        switch_byte_rgb_after _ _ _ (by omega),
        testBit_color_word_red_only _ _ _ hg hb, testBit_color_word_red_only _ _ _ hg hb,
        testBit_high_of_lt _ _ hr8 (by omega), testBit_high_of_lt _ _ hr8 (by omega)]
      simp only [Bool.and_false]
      decide
    · have hk := step_of_byte_ge_eight (8 + j) (by omega)
      have hk2 := step_of_byte_lt (8 + j) (by omega)
      have h1 : ¬ 8 ≤ 23 - 2 * step_of_byte (8 + j) := by omega
      have h2 : ¬ 8 ≤ 22 - 2 * step_of_byte (8 + j) := by omega
      rw [(FillI2SDriverBuffer_bytes s).1 q (8 + j) hq (by omega),
        switch_byte_rgb_after _ _ _ hk2,
        testBit_color_word_red_only _ _ _ hg hb, testBit_color_word_red_only _ _ _ hg hb]
      simp only [h1, h2, decide_False, Bool.false_and]
      decide
  · intro m hm
    have hx : m ^^^ 1 < 4 := by interval_cases m <;> decide
    have e1 : 23 - 2 * (4 + m) - 8 = 7 - 2 * m := by omega
    have e2 : 22 - 2 * (4 + m) - 8 = 6 - 2 * m := by omega
    have h1 : 8 ≤ 23 - 2 * (4 + m) := by omega
    have h2 : 8 ≤ 22 - 2 * (4 + m) := by omega
    rw [(FillI2SDriverBuffer_bytes s).1 q (4 + (m ^^^ 1)) hq (by omega),
      step_of_byte_middle m hm, switch_byte_rgb_after _ _ _ (by omega),
      testBit_color_word_red_only _ _ _ hg hb, testBit_color_word_red_only _ _ _ hg hb, e1, e2]
    simp only [h1, h2, decide_True, Bool.true_and]
    have l1 := drive_symbol_lt ((scaled (s.pixels q).r s.m_brightness).testBit (6 - 2 * m))
    exact ⟨by omega, by omega⟩

/-- C13, at a concrete input: a pixel with red 0x81 at brightness 255, whose
scaled red value is 0x80. -/
theorem channel_order_red_second_witness :
    (FillI2SDriverBuffer led_red).tx_bytes 0 = 0x88
    ∧ (FillI2SDriverBuffer led_red).tx_bytes 8 = 0x88
    ∧ (FillI2SDriverBuffer led_red).tx_bytes 5 / 16 = 0xE
    ∧ (FillI2SDriverBuffer led_red).tx_bytes 5 % 16 = 0x8 :=
  have h := channel_order_red_second led_red 0 (by decide) rfl rfl (by decide) (by decide)
  ⟨(h.1 0 (by decide)).1, (h.1 0 (by decide)).2, (h.2 0 (by decide)).1, (h.2 0 (by decide)).2⟩

/-- C11, refuted as stated: at brightness 255 the channel value 255 is scaled
to `(255 * 255) >> 8 = 254`, so a white pixel is encoded as 0xFEFEFE: the byte
of step 3 (index 2), which carries bits 17 and 16, is 0xE8 and not 0xEE. -/
theorem full_brightness_is_not_identity :
    scaled 255 255 = 254
    ∧ scaled 255 255 ≠ 255
    ∧ pixel_rgb { r := 255, g := 255, b := 255 } 255 = 0xFEFEFE
    ∧ (FillI2SDriverBuffer led_white).tx_bytes 2 = 0xE8 := by
  refine ⟨by decide, by decide, by decide, ?_⟩
  have h := (FillI2SDriverBuffer_bytes led_white).1 0 2 (by decide) (by decide)
  rw [show (((12 * 0 + 2 : Nat) : Int)) = 2 from rfl] at h
  rw [h]
  decide

/-- C11, amended: with brightness 255 the scaling maps every channel value `c`
in `0..255` to `(c * 255) >> 8 = c - 1` (and 0 to 0), so the frame
`FillI2SDriverBuffer` produces encodes each pixel's `g`, `r`, `b` values
decremented by one: the byte of pixel `q`, step `k` holds the symbols of bits
`23 - 2 * k` and `22 - 2 * k` of `((g - 1) << 16) | ((r - 1) << 8) | (b - 1)`. -/
theorem full_brightness_decrements (s : LedState) (q k : Nat)
    (hq : q < s.m_numPixels) (hk : k < 12) (hbr : s.m_brightness = 255)
    (hr : (s.pixels q).r < 256) (hg : (s.pixels q).g < 256) (hb : (s.pixels q).b < 256) :
    (∀ c, c < 256 → scaled c 255 = c - 1)
    ∧ color_word (s.pixels q) s.m_brightness
        = (((s.pixels q).g - 1) <<< 16) ||| (((s.pixels q).r - 1) <<< 8) ||| ((s.pixels q).b - 1)
    ∧ (FillI2SDriverBuffer s).tx_bytes ((12 * q + (k ^^^ 1) : Nat) : Int) / 16
        = drive_symbol (((((s.pixels q).g - 1) <<< 16) ||| (((s.pixels q).r - 1) <<< 8)
            ||| ((s.pixels q).b - 1)).testBit (23 - 2 * k))
    ∧ (FillI2SDriverBuffer s).tx_bytes ((12 * q + (k ^^^ 1) : Nat) : Int) % 16
        = drive_symbol (((((s.pixels q).g - 1) <<< 16) ||| (((s.pixels q).r - 1) <<< 8)
            ||| ((s.pixels q).b - 1)).testBit (22 - 2 * k)) := by
  have hw : color_word (s.pixels q) s.m_brightness
      = (((s.pixels q).g - 1) <<< 16) ||| (((s.pixels q).r - 1) <<< 8)
        ||| ((s.pixels q).b - 1) := by
    unfold color_word
    rw [hbr, scaled_255 _ hr, scaled_255 _ hg, scaled_255 _ hb]
  have hbyte := (FillI2SDriverBuffer_bytes s).1 q (k ^^^ 1) hq (xor_one_lt k hk)
  rw [step_of_byte_xor_one k hk, switch_byte_rgb_after _ _ _ hk, hw] at hbyte
  have l1 := drive_symbol_lt (((((s.pixels q).g - 1) <<< 16) ||| (((s.pixels q).r - 1) <<< 8)
    ||| ((s.pixels q).b - 1)).testBit (22 - 2 * k))
  refine ⟨fun c hc => scaled_255 c hc, hw, ?_, ?_⟩
  · rw [hbyte]
    omega
  · rw [hbyte]
    omega

/-- C11 amended, at a concrete input: white pixels at brightness 255. -/
theorem full_brightness_decrements_witness :
    scaled 255 255 = 255 - 1
    ∧ color_word (led_white.pixels 0) led_white.m_brightness
        = ((255 - 1) <<< 16) ||| ((255 - 1) <<< 8) ||| (255 - 1)
    ∧ (FillI2SDriverBuffer led_white).tx_bytes 2 % 16 = 0x8 :=
  have h := full_brightness_decrements led_white 0 3 (by decide) (by decide) rfl
    (by decide) (by decide) (by decide)
  ⟨h.1 255 (by decide), h.2.1, h.2.2.2⟩

/-- C20: the colour region is decodable.  For pixels and brightness values in
the 8-bit range the scaled channels `c' = (c * brightness) >> 8` are each at
most 254, they occupy disjoint bytes of the word `(g' << 16) | (r' << 8) | b'`
(which is `g' * 65536 + r' * 256 + b'`), and two (pixel, brightness) inputs
leave the same 12 encoded bytes if and only if their scaled triples are
equal. -/
theorem colour_region_decodable (s1 s2 : LedState) (q1 q2 : Nat)
    (hq1 : q1 < s1.m_numPixels) (hq2 : q2 < s2.m_numPixels)
    (h1 : (s1.pixels q1).r < 256 ∧ (s1.pixels q1).g < 256 ∧ (s1.pixels q1).b < 256
      ∧ s1.m_brightness < 256)
    (h2 : (s2.pixels q2).r < 256 ∧ (s2.pixels q2).g < 256 ∧ (s2.pixels q2).b < 256
      ∧ s2.m_brightness < 256) :
    (scaled (s1.pixels q1).g s1.m_brightness ≤ 254
      ∧ scaled (s1.pixels q1).r s1.m_brightness ≤ 254
      ∧ scaled (s1.pixels q1).b s1.m_brightness ≤ 254)
    ∧ color_word (s1.pixels q1) s1.m_brightness
        = scaled (s1.pixels q1).g s1.m_brightness * 65536
          + scaled (s1.pixels q1).r s1.m_brightness * 256
          + scaled (s1.pixels q1).b s1.m_brightness
    ∧ (pixel_bytes s1 q1 = pixel_bytes s2 q2 ↔
        (scaled (s1.pixels q1).g s1.m_brightness = scaled (s2.pixels q2).g s2.m_brightness
        ∧ scaled (s1.pixels q1).r s1.m_brightness = scaled (s2.pixels q2).r s2.m_brightness
        ∧ scaled (s1.pixels q1).b s1.m_brightness = scaled (s2.pixels q2).b s2.m_brightness)) := by
  obtain ⟨hr1, hg1, hb1, hbr1⟩ := h1
  obtain ⟨hr2, hg2, hb2, hbr2⟩ := h2
  have g1 := scaled_le _ _ hg1 hbr1
  have r1 := scaled_le _ _ hr1 hbr1
  have b1 := scaled_le _ _ hb1 hbr1
  have g2 := scaled_le _ _ hg2 hbr2
  have r2 := scaled_le _ _ hr2 hbr2
  have b2 := scaled_le _ _ hb2 hbr2
  refine ⟨⟨g1, r1, b1⟩, color_word_eq_add _ _ (by omega) (by omega), ?_⟩
  rw [pixel_bytes_eq s1 q1 hq1, pixel_bytes_eq s2 q2 hq2]
  constructor
  · intro hlist
    have hall := List.map_inj_left.mp hlist
    have hsteps : ∀ k, k < 12 →
        switch_byte (rgb_after (pixel_rgb (s1.pixels q1) s1.m_brightness) k)
          = switch_byte (rgb_after (pixel_rgb (s2.pixels q2) s2.m_brightness) k) := by
      intro k hk
      have := hall (step_of_byte k) (List.mem_range.mpr (step_of_byte_lt k hk))
      simp only [step_of_byte_step_of_byte] at this
      exact this
    have hbits := color_word_bits_of_bytes _ _ _ _ hsteps
    have c1 := testBit_color_word_channels (s1.pixels q1) s1.m_brightness
    have c2 := testBit_color_word_channels (s2.pixels q2) s2.m_brightness
    refine ⟨?_, ?_, ?_⟩
    · apply Nat.eq_of_testBit_eq
      intro i
      by_cases hi : i < 8
      · rw [← (c1 i (by omega) (by omega) hi).1, ← (c2 i (by omega) (by omega) hi).1]
        exact hbits (16 + i) (by omega)
      · rw [testBit_high_of_lt _ i (by omega) (by omega),
          testBit_high_of_lt _ i (by omega) (by omega)]
    · apply Nat.eq_of_testBit_eq
      intro i
      by_cases hi : i < 8
      · rw [← (c1 i (by omega) (by omega) hi).2.1, ← (c2 i (by omega) (by omega) hi).2.1]
        exact hbits (8 + i) (by omega)
      · rw [testBit_high_of_lt _ i (by omega) (by omega),
          testBit_high_of_lt _ i (by omega) (by omega)]
    · apply Nat.eq_of_testBit_eq
      intro i
      by_cases hi : i < 8
      · rw [← (c1 i (by omega) (by omega) hi).2.2, ← (c2 i (by omega) (by omega) hi).2.2]
        exact hbits i (by omega)
      · rw [testBit_high_of_lt _ i (by omega) (by omega),
          testBit_high_of_lt _ i (by omega) (by omega)]
  · rintro ⟨eg, er, eb⟩
    have hw : color_word (s1.pixels q1) s1.m_brightness
        = color_word (s2.pixels q2) s2.m_brightness := by
      unfold color_word
      rw [eg, er, eb]
    rw [pixel_rgb_eq_color_word, pixel_rgb_eq_color_word, hw]

/-- C20, at a concrete input: a pixel of `led_red` (red 0x81 at brightness 255)
and a pixel of `led_boot` (red 255 at brightness 128) scale to different
triples and are encoded differently. -/
theorem colour_region_decodable_witness :
    scaled (led_red.pixels 0).r led_red.m_brightness ≤ 254
    ∧ (pixel_bytes led_red 0 = pixel_bytes led_boot 0 ↔
        (scaled (led_red.pixels 0).g led_red.m_brightness
            = scaled (led_boot.pixels 0).g led_boot.m_brightness
        ∧ scaled (led_red.pixels 0).r led_red.m_brightness
            = scaled (led_boot.pixels 0).r led_boot.m_brightness
        ∧ scaled (led_red.pixels 0).b led_red.m_brightness
            = scaled (led_boot.pixels 0).b led_boot.m_brightness)) :=
  have h := colour_region_decodable led_red led_boot 0 0 (by decide) (by decide)
    (by decide) (by decide)
  ⟨h.1.2.1, h.2.2⟩

/-! ## Helper lemmas: the stores of the encoder -/

theorem step_of_byte_two_add (j : Nat) : step_of_byte (2 + j) = 2 + step_of_byte j := by
  unfold step_of_byte
  split_ifs <;> omega

theorem step_of_byte_twelve_add (j : Nat) : step_of_byte (12 + j) = 12 + step_of_byte j := by
  unfold step_of_byte
  split_ifs <;> omega

/-- The stores of `2 * m` inner-loop iterations started with offset `+1`. -/
theorem fill_inner_even_stores (m : Nat) : ∀ c : FillLocals, c.offset = 1 →
    (fill_inner (2 * m) c).tx_stores
      = c.tx_stores ++ (List.range (2 * m)).map (fun j => c.pTX + ((step_of_byte j : Nat) : Int)) := by
  induction m with
  | zero =>
    intro c _
    simp [fill_inner]
  | succ m ih =>
    intro c h
    have e : 2 * (m + 1) = 2 * m + 2 := by ring
    have e2 : 2 * m + 2 = 2 + 2 * m := by ring
    rw [e, fill_inner_two _ c h, ih _ rfl, e2, List.range_add, List.map_append, List.map_map]
    simp only [List.append_assoc]
    congr 1
    have h2 : List.map (fun j => c.pTX + ((step_of_byte j : Nat) : Int)) (List.range 2)
        = [c.pTX + 1, c.pTX] := by
      simp [List.range, List.range.loop, step_of_byte]
    rw [h2]
    congr 1
    apply List.map_congr_left
    intro j _
    simp only [Function.comp_apply, step_of_byte_two_add]
    push_cast
    ring

/-- The stores of the outer loop run for `n` pixels from offset `+1`. -/
theorem fill_outer_stores (pixels : Nat → LEDDRIVERPIXEL) (m_brightness : Nat) (n : Nat) :
    ∀ (pPixel : Nat) (c : FillLocals), c.offset = 1 →
    (fill_outer pixels m_brightness n pPixel c).tx_stores
      = c.tx_stores
        ++ (List.range (12 * n)).map (fun j => c.pTX + ((step_of_byte j : Nat) : Int)) := by
  induction n with
  | zero =>
    intro pPixel c _
    simp [fill_outer]
  | succ n ih =>
    intro pPixel c h
    rw [fill_outer_succ]
    obtain ⟨i1, i2, _, _⟩ := fill_inner_even 6
      { c with rgb := pixel_rgb (pixels pPixel) m_brightness } h
    have i5 := fill_inner_even_stores 6
      { c with rgb := pixel_rgb (pixels pPixel) m_brightness } h
    simp only at i2 i5
    have e : 12 * (n + 1) = 12 + 12 * n := by ring
    rw [ih (pPixel + 1) _ i1, i2, i5, e, List.range_add, List.map_append, List.map_map]
    simp only [List.append_assoc]
    congr 2
    apply List.map_congr_left
    intro j _
    simp only [Function.comp_apply, step_of_byte_twelve_add]
    push_cast
    ring

/-- The stores of `FillI2SDriverBuffer`, in program order. -/
theorem FillI2SDriverBuffer_stores (s : LedState) :
    (FillI2SDriverBuffer s).tx_stores = s.tx_stores ++ store_offsets (12 * s.m_numPixels) := by
  have h := fill_outer_stores s.pixels s.m_brightness s.m_numPixels 0
    { rgb := 0, pTX := 0, offset := 1, tx_bytes := s.tx_bytes, tx_stores := s.tx_stores } rfl
  simp only [zero_add] at h
  exact h

theorem mem_store_offsets (n : Nat) (x : Int) :
    x ∈ store_offsets (2 * n) ↔ 0 ≤ x ∧ x < 2 * (n : Int) := by
  unfold store_offsets
  rw [List.mem_map]
  constructor
  · rintro ⟨j, hj, rfl⟩
    have hj2 := List.mem_range.mp hj
    unfold step_of_byte
    split_ifs <;> omega
  · rintro ⟨h0, h1⟩
    refine ⟨step_of_byte x.toNat, List.mem_range.mpr ?_, ?_⟩
    · unfold step_of_byte
      split_ifs <;> omega
    · rw [step_of_byte_step_of_byte]
      omega

theorem nodup_store_offsets (n : Nat) : (store_offsets n).Nodup := by
  unfold store_offsets
  apply List.Nodup.map _ (List.nodup_range n)
  intro a b hab
  have h : step_of_byte a = step_of_byte b := by
    simp only [Nat.cast_inj] at hab
    exact hab
  have := congrArg step_of_byte h
  rw [step_of_byte_step_of_byte, step_of_byte_step_of_byte] at this
  exact this

/-! ## The frame effect of the encoder -/

/-- C19, refuted as stated: for 21844 pixels `3 * N + RESET_BITS = 65538` does
not fit the 16-bit `m_i2sBufferSize`, `neopixelWrite` declares a frame of 2
words (8 bytes), and `FillI2SDriverBuffer` stores to byte index 8, which is
outside that frame. -/
theorem store_outside_wrapped_frame :
    (neopixelWrite led_wrap).m_i2sBufferSize = 2
    ∧ frame_length (neopixelWrite led_wrap) = 8
    ∧ (8 : Int) ∈ (FillI2SDriverBuffer led_wrap).tx_stores
    ∧ ¬ ((8 : Int) < (frame_length (neopixelWrite led_wrap) : Int)) := by
  have hlen : frame_length (neopixelWrite led_wrap) = 8 := by
    rw [frame_length_neopixelWrite]
    rfl
  refine ⟨?_, hlen, ?_, ?_⟩
  · rw [(neopixelWrite_eq led_wrap).1]
    rfl
  · rw [FillI2SDriverBuffer_stores]
    apply List.mem_append_right
    have e : 12 * led_wrap.m_numPixels = 2 * 131064 := rfl
    rw [e, mem_store_offsets]
    omega
  · rw [hlen]
    omega

/-- C19, amended: `FillI2SDriverBuffer` for `N` pixels performs `12 * N` stores,
step `j` going to byte index `j + 1` for even `j` and `j - 1` for odd `j`; every
byte index in `[0, 12 * N)` is stored to exactly once and no index outside that
range is stored to, and every byte at an index `>= 12 * N` (or below 0) is
unchanged.  Every stored index is below `4 * (3 * N + RESET_BITS)`, and when
`3 * N + RESET_BITS` fits 16 bits that is the length of the frame
`neopixelWrite` declares, so every stored index lies inside the frame. -/
theorem encoder_stores_each_byte_once (s : LedState) :
    (FillI2SDriverBuffer s).tx_stores = s.tx_stores ++ store_offsets (12 * s.m_numPixels)
    ∧ (∀ x : Int, 0 ≤ x ∧ x < 12 * (s.m_numPixels : Int) →
        (store_offsets (12 * s.m_numPixels)).count x = 1)
    ∧ (∀ x : Int, ¬ (0 ≤ x ∧ x < 12 * (s.m_numPixels : Int)) →
        (store_offsets (12 * s.m_numPixels)).count x = 0)
    ∧ (∀ x : Int, 12 * (s.m_numPixels : Int) ≤ x →
        (FillI2SDriverBuffer s).tx_bytes x = s.tx_bytes x)
    ∧ (∀ x : Int, x ∈ store_offsets (12 * s.m_numPixels) →
        0 ≤ x ∧ x < 4 * (3 * (s.m_numPixels : Int) + (RESET_BITS : Int)))
    ∧ (3 * s.m_numPixels + RESET_BITS < 65536 →
        frame_length (neopixelWrite s) = 4 * (3 * s.m_numPixels + RESET_BITS)
        ∧ ∀ x : Int, x ∈ store_offsets (12 * s.m_numPixels) →
            0 ≤ x ∧ x < (frame_length (neopixelWrite s) : Int)) := by
  have e : 12 * s.m_numPixels = 2 * (6 * s.m_numPixels) := by ring
  have hmem : ∀ x : Int, x ∈ store_offsets (12 * s.m_numPixels)
      ↔ 0 ≤ x ∧ x < 12 * (s.m_numPixels : Int) := by
    intro x
    rw [e, mem_store_offsets]
    push_cast
    omega
  refine ⟨FillI2SDriverBuffer_stores s, ?_, ?_, ?_, ?_, ?_⟩
  · intro x hx
    exact List.count_eq_one_of_mem (nodup_store_offsets _) ((hmem x).mpr hx)
  · intro x hx
    exact List.count_eq_zero_of_not_mem (fun h => hx ((hmem x).mp h))
  · intro x hx
    exact (FillI2SDriverBuffer_bytes s).2 x (Or.inr hx)
  · intro x hx
    have := (hmem x).mp hx
    unfold RESET_BITS
    omega
  · intro hfit
    have hlen : frame_length (neopixelWrite s) = 4 * (3 * s.m_numPixels + RESET_BITS) := by
      rw [frame_length_neopixelWrite, Nat.mod_eq_of_lt hfit]
    refine ⟨hlen, ?_⟩
    intro x hx
    have := (hmem x).mp hx
    rw [hlen]
    unfold RESET_BITS
    push_cast
    omega

/-- C19 amended, at a concrete input: the three-pixel sample stores to byte 35
once, to byte 36 never, and stays inside its 60-byte frame. -/
theorem encoder_stores_each_byte_once_witness :
    (store_offsets (12 * led_boot.m_numPixels)).count 35 = 1
    ∧ (store_offsets (12 * led_boot.m_numPixels)).count 36 = 0
    ∧ frame_length (neopixelWrite led_boot) = 4 * (3 * led_boot.m_numPixels + RESET_BITS) :=
  have h := encoder_stores_each_byte_once led_boot
  ⟨h.2.1 35 (by decide), h.2.2.1 36 (by decide), (h.2.2.2.2.2 (by decide)).1⟩

/-! ## Helper lemmas: the guard of `check_rx_data` and the warm-up counter -/

/-- The function `check_rx_data` when the error flag is set: only the block
counter changes. -/
theorem check_rx_data_of_error (s : State) (p_block : Block)
    (h : s.m_error_encountered = true) :
    check_rx_data s p_block
      = { s with m_blocks_transferred := u8 ((s.m_blocks_transferred : Int) + 1) } := by
  unfold check_rx_data
  simp only [h, Bool.not_true, Bool.false_eq_true, if_false]

/-- With the error flag set, a sequence of `check_rx_data` calls changes only
the block counter. -/
theorem foldl_check_rx_data_of_error (later : List Block) :
    ∀ s : State, s.m_error_encountered = true →
      (later.foldl check_rx_data s).m_sample_value_expected = s.m_sample_value_expected
      ∧ (later.foldl check_rx_data s).m_zero_samples_to_ignore = s.m_zero_samples_to_ignore
      ∧ (later.foldl check_rx_data s).m_sample_value_to_send = s.m_sample_value_to_send
      ∧ (later.foldl check_rx_data s).m_error_encountered = true
      ∧ ((later.foldl check_rx_data s).m_blocks_transferred : Int) % 256
          = ((s.m_blocks_transferred : Int) + (later.length : Int)) % 256 := by
  induction later with
  | nil =>
    intro s h
    exact ⟨rfl, rfl, rfl, h, by simp⟩
  | cons b rest ih =>
    intro s h
    simp only [List.foldl_cons, List.length_cons]
    rw [check_rx_data_of_error s b h]
    obtain ⟨h1, h2, h3, h4, h5⟩ := ih
      { s with m_blocks_transferred := u8 ((s.m_blocks_transferred : Int) + 1) } h
    refine ⟨h1, h2, h3, h4, ?_⟩
    rw [h5]
    simp only [u8]
    push_cast
    omega

/-- With the skip counter at zero, a run that contains a `(0, 0)` pair is
rejected: the pair is compared, and no expected pair is `(0, 0)`. -/
theorem check_samples_loop_zero_after_warmup (n : Nat) :
    ∀ (i : Nat) (s : State) (p_block : Block) (k : Nat),
    s.m_zero_samples_to_ignore = 0 → k < n →
    load_half0 (p_block (i + k)) = 0 → load_half1 (p_block (i + k)) = 0 →
    (check_samples_loop n i s p_block).1 = false := by
  induction n with
  | zero => intro i s p_block k _ hk; omega
  | succ n ih =>
    intro i s p_block k hs hk hl hr
    have hz : ¬ (0 < s.m_zero_samples_to_ignore ∧ load_half0 (p_block i) = 0
        ∧ load_half1 (p_block i) = 0) := by omega
    by_cases hm : load_half0 (p_block i) = u16 ((s.m_sample_value_expected : Int) - 1)
        ∧ load_half1 (p_block i) = u16 ((s.m_sample_value_expected : Int) + 1)
    · rw [check_samples_loop_match n i s p_block hz hm.1 hm.2]
      rcases Nat.eq_zero_or_pos k with hk0 | hkpos
      · subst hk0
        exfalso
        rw [Nat.add_zero] at hl hr
        exact expected_pair_ne_zero _ ⟨by rw [← hm.1]; exact hl, by rw [← hm.2]; exact hr⟩
      · have e : i + 1 + (k - 1) = i + k := by omega
        exact ih (i + 1) _ p_block (k - 1) rfl (by omega) (by rw [e]; exact hl)
          (by rw [e]; exact hr)
    · rw [check_samples_loop_mismatch n i s p_block hz (by
        by_contra hcon
        apply hm
        constructor
        · by_contra h1
          exact hcon (Or.inl h1)
        · by_contra h2
          exact hcon (Or.inr h2))]

/-- A run in which a `(0, 0)` pair comes after a pair that is not `(0, 0)` is
rejected, whatever the skip counter. -/
theorem check_samples_loop_zero_after_nonzero (n : Nat) :
    ∀ (i : Nat) (s : State) (p_block : Block) (a c : Nat),
    a < c → c < n →
    ¬ (load_half0 (p_block (i + a)) = 0 ∧ load_half1 (p_block (i + a)) = 0) →
    load_half0 (p_block (i + c)) = 0 → load_half1 (p_block (i + c)) = 0 →
    (check_samples_loop n i s p_block).1 = false := by
  induction n with
  | zero => intro i s p_block a c _ hc; omega
  | succ n ih =>
    intro i s p_block a c hac hc hnz hl hr
    have ec : i + 1 + (c - 1) = i + c := by omega
    by_cases habs : 0 < s.m_zero_samples_to_ignore ∧ load_half0 (p_block i) = 0
        ∧ load_half1 (p_block i) = 0
    · have ha : 0 < a := by
        rcases Nat.eq_zero_or_pos a with h0 | hp
        · subst h0
          exfalso
          rw [Nat.add_zero] at hnz
          exact hnz habs.2
        · exact hp
      have ea : i + 1 + (a - 1) = i + a := by omega
      rw [check_samples_loop_absorb n i s p_block habs.1 habs.2.1 habs.2.2]
      exact ih (i + 1) _ p_block (a - 1) (c - 1) (by omega) (by omega)
        (by rw [ea]; exact hnz) (by rw [ec]; exact hl) (by rw [ec]; exact hr)
    · by_cases hm : load_half0 (p_block i) = u16 ((s.m_sample_value_expected : Int) - 1)
          ∧ load_half1 (p_block i) = u16 ((s.m_sample_value_expected : Int) + 1)
      · rw [check_samples_loop_match n i s p_block habs hm.1 hm.2]
        exact check_samples_loop_zero_after_warmup n (i + 1) _ p_block (c - 1) rfl (by omega)
          (by rw [ec]; exact hl) (by rw [ec]; exact hr)
      · rw [check_samples_loop_mismatch n i s p_block habs (by
          by_contra hcon
          apply hm
          constructor
          · by_contra h1
            exact hcon (Or.inl h1)
          · by_contra h2
            exact hcon (Or.inr h2))]

/-! ## More self-test claims -/

/-- C16, refuted as stated: with the error flag set, `check_rx_data` on a block
that continues the expected sequence leaves the expected counter at 0xFFFF,
whereas `check_samples` on that block would advance it to 511: the comparison
is not run. -/
theorem flagged_block_is_not_checked :
    failed_state.m_error_encountered = true
    ∧ (check_rx_data failed_state good_block).m_sample_value_expected = 0xFFFF
    ∧ (check_samples failed_state good_block).2.m_sample_value_expected = 511
    ∧ (check_rx_data failed_state good_block).m_sample_value_expected
        ≠ (check_samples failed_state good_block).2.m_sample_value_expected := by
  have hb : ∀ i, i < I2S_DATA_BLOCK_WORDS →
      load_half0 (good_block i)
          = u16 ((failed_state.m_sample_value_expected : Int) + (i : Int) - 1)
      ∧ load_half1 (good_block i)
          = u16 ((failed_state.m_sample_value_expected : Int) + (i : Int) + 1) := by
    intro i _
    simp only [good_block, load_half0_pair_word, load_half1_pair_word, failed_state,
      sample_state, u16]
    omega
  have h1 : (check_rx_data failed_state good_block).m_sample_value_expected = 0xFFFF := by
    rw [check_rx_data_of_error failed_state good_block rfl]
    rfl
  have h2 : (check_samples failed_state good_block).2.m_sample_value_expected = 511 := by
    rw [check_samples_expected_eq failed_state good_block hb]
    rfl
  refine ⟨rfl, h1, h2, ?_⟩
  rw [h1, h2]
  decide

/-- C16, amended: a sample mismatch is non-fatal and the session continues, but
later blocks are no longer compared.  Once the error flag is set,
`check_rx_data` only counts the block in `m_blocks_transferred` (modulo 256)
and keeps the flag: the comparison `check_samples` is guarded by the flag, so
the expected-sample counter, the skip counter and the send counter keep their
values over every later received block. -/
theorem flagged_blocks_are_only_counted (s : State) (p_block : Block) (later : List Block)
    (h : s.m_error_encountered = true) :
    check_rx_data s p_block
      = { s with m_blocks_transferred := u8 ((s.m_blocks_transferred : Int) + 1) }
    ∧ (later.foldl check_rx_data s).m_sample_value_expected = s.m_sample_value_expected
    ∧ (later.foldl check_rx_data s).m_zero_samples_to_ignore = s.m_zero_samples_to_ignore
    ∧ (later.foldl check_rx_data s).m_error_encountered = true
    ∧ ((later.foldl check_rx_data s).m_blocks_transferred : Int) % 256
        = ((s.m_blocks_transferred : Int) + (later.length : Int)) % 256 := by
  obtain ⟨h1, h2, _, h4, h5⟩ := foldl_check_rx_data_of_error later s h
  exact ⟨check_rx_data_of_error s p_block h, h1, h2, h4, h5⟩

/-- C16 amended, at a concrete input: two correct blocks after the flag is
set. -/
theorem flagged_blocks_are_only_counted_witness :
    failed_state.m_error_encountered = true
    ∧ ([good_block, good_block].foldl check_rx_data failed_state).m_sample_value_expected
        = 0xFFFF
    ∧ ([good_block, good_block].foldl check_rx_data failed_state).m_error_encountered = true :=
  have h := flagged_blocks_are_only_counted failed_state good_block [good_block, good_block] rfl
  ⟨rfl, h.2.1, h.2.2.2.1⟩

/-- C17: the validator absorbs only leading all-zero pairs, at most as many as
the skip counter allows.  One iteration on a `(0, 0)` pair with a positive skip
counter decrements the skip counter and leaves the expected counter untouched;
with the skip counter at zero the `(0, 0)` pair is compared and rejected; a pair
that is not `(0, 0)` clears the skip counter.  Hence from a state with skip
counter 2 a block that starts with three `(0, 0)` pairs is not OK, and a block
in which a `(0, 0)` pair comes after a pair that is not `(0, 0)` is not OK. -/
theorem warmup_absorbs_only_leading_zeros (s : State) (p_block : Block) :
    (∀ i, 0 < s.m_zero_samples_to_ignore →
        load_half0 (p_block i) = 0 → load_half1 (p_block i) = 0 →
        check_samples_loop 1 i s p_block
          = (true, { s with
              m_zero_samples_to_ignore := u8 ((s.m_zero_samples_to_ignore : Int) - 1) })
        ∧ (0 < s.m_zero_samples_to_ignore ∧ s.m_zero_samples_to_ignore < 256 →
            u8 ((s.m_zero_samples_to_ignore : Int) - 1) = s.m_zero_samples_to_ignore - 1))
    ∧ (∀ i, s.m_zero_samples_to_ignore = 0 →
        load_half0 (p_block i) = 0 → load_half1 (p_block i) = 0 →
        (check_samples_loop 1 i s p_block).1 = false)
    ∧ (∀ i, ¬ (load_half0 (p_block i) = 0 ∧ load_half1 (p_block i) = 0) →
        (check_samples_loop 1 i s p_block).2.m_zero_samples_to_ignore = 0)
    ∧ (s.m_zero_samples_to_ignore = 2 →
        (∀ i, i < 3 → load_half0 (p_block i) = 0 ∧ load_half1 (p_block i) = 0) →
        (check_samples s p_block).1 = false)
    ∧ (∀ a c, a < c → c < I2S_DATA_BLOCK_WORDS →
        ¬ (load_half0 (p_block a) = 0 ∧ load_half1 (p_block a) = 0) →
        load_half0 (p_block c) = 0 → load_half1 (p_block c) = 0 →
        (check_samples s p_block).1 = false) := by
  refine ⟨?_, ?_, ?_, ?_, ?_⟩
  · intro i hz hl hr
    constructor
    · rw [check_samples_loop_absorb 0 i s p_block hz hl hr]
      rfl
    · intro hrange
      unfold u8
      omega
  · intro i hz hl hr
    exact check_samples_loop_zero_after_warmup 1 i s p_block 0 hz (by omega)
      (by rw [Nat.add_zero]; exact hl) (by rw [Nat.add_zero]; exact hr)
  · intro i hnz
    have hz : ¬ (0 < s.m_zero_samples_to_ignore ∧ load_half0 (p_block i) = 0
        ∧ load_half1 (p_block i) = 0) := fun h => hnz h.2
    by_cases hm : load_half0 (p_block i) = u16 ((s.m_sample_value_expected : Int) - 1)
        ∧ load_half1 (p_block i) = u16 ((s.m_sample_value_expected : Int) + 1)
    · rw [check_samples_loop_match 0 i s p_block hz hm.1 hm.2]
      rfl
    · rw [check_samples_loop_mismatch 0 i s p_block hz (by
        by_contra hcon
        apply hm
        constructor
        · by_contra h1
          exact hcon (Or.inl h1)
        · by_contra h2
          exact hcon (Or.inr h2))]
  · intro hs hzero
    show (check_samples_loop (510 + 1 + 1) 0 s p_block).1 = false
    rw [check_samples_loop_absorb _ 0 s p_block (by omega) (hzero 0 (by omega)).1
      (hzero 0 (by omega)).2]
    rw [check_samples_loop_absorb 510 (0 + 1) _ p_block (by simp [hs, u8])
      (hzero 1 (by omega)).1 (hzero 1 (by omega)).2]
    exact check_samples_loop_zero_after_warmup 510 (0 + 1 + 1) _ p_block 0
      (by simp [hs, u8]) (by omega) (hzero 2 (by omega)).1 (hzero 2 (by omega)).2
  · intro a c hac hc hnz hl hr
    exact check_samples_loop_zero_after_nonzero I2S_DATA_BLOCK_WORDS 0 s p_block a c hac hc
      (by rw [Nat.zero_add]; exact hnz) (by rw [Nat.zero_add]; exact hl)
      (by rw [Nat.zero_add]; exact hr)

/-- C17, at concrete inputs: from the fresh session state an all-zero block is
rejected (its third pair is compared), and so is a block whose zero pairs
follow a correct first pair. -/
theorem warmup_absorbs_only_leading_zeros_witness :
    fresh_state.m_zero_samples_to_ignore = 2
    ∧ (check_samples fresh_state zero_block).1 = false
    ∧ (check_samples fresh_state late_zero_block).1 = false :=
  ⟨rfl,
   (warmup_absorbs_only_leading_zeros fresh_state zero_block).2.2.2.1 rfl
     (fun _ _ => by simp [zero_block, load_half0, load_half1]),
   (warmup_absorbs_only_leading_zeros fresh_state late_zero_block).2.2.2.2 0 1
     (by decide) (by decide) (by decide) (by decide) (by decide)⟩

/-! ## Helper lemmas: loopback of generator and validator -/

theorem prepare_tx_data_of_no_reinit (s : State) (p_block : Block)
    (h : ¬ (s.m_blocks_transferred = 0 ∧ s.m_zero_samples_to_ignore = 0)) :
    prepare_tx_data s p_block = prepare_tx_loop I2S_DATA_BLOCK_WORDS 0 s p_block := by
  unfold prepare_tx_data
  rw [if_neg h]

theorem prepare_tx_data_of_reinit (s : State) (p_block : Block)
    (h : s.m_blocks_transferred = 0 ∧ s.m_zero_samples_to_ignore = 0) :
    prepare_tx_data s p_block = prepare_tx_loop I2S_DATA_BLOCK_WORDS 0
      { s with
        m_zero_samples_to_ignore := 2
        m_sample_value_to_send := 0xCAFE
        m_sample_value_expected := 0xCAFE
        m_error_encountered := false }
      p_block := by
  unfold prepare_tx_data
  rw [if_pos h]

/-- The pair the generator loop leaves in word `i` of a block. -/
theorem prepare_tx_loop_pairs (s : State) (p_block : Block) (i : Nat)
    (hi : i < I2S_DATA_BLOCK_WORDS) :
    load_half0 ((prepare_tx_loop I2S_DATA_BLOCK_WORDS 0 s p_block).2 i)
        = u16 ((s.m_sample_value_to_send : Int) + (i : Int) - 1)
    ∧ load_half1 ((prepare_tx_loop I2S_DATA_BLOCK_WORDS 0 s p_block).2 i)
        = u16 ((s.m_sample_value_to_send : Int) + (i : Int) + 1) := by
  have hin : 0 ≤ i ∧ i < 0 + I2S_DATA_BLOCK_WORDS := by omega
  rw [prepare_tx_loop_block, if_pos hin, load_half0_pack _ _ (u16_lt _),
    load_half1_pack _ _ (u16_lt _) (u16_lt _), Nat.sub_zero]
  exact ⟨rfl, rfl⟩

/-- Successive generator calls without re-initialisation continue one
sequence. -/
theorem generated_blocks_pairs (n : Nat) : ∀ (s : State),
    ¬ (s.m_blocks_transferred = 0 ∧ s.m_zero_samples_to_ignore = 0) →
    ∀ k i, k < n → i < I2S_DATA_BLOCK_WORDS →
    load_half0 ((generated_blocks n s).getD k zero_block i)
        = u16 ((s.m_sample_value_to_send : Int) + 512 * (k : Int) + (i : Int) - 1)
    ∧ load_half1 ((generated_blocks n s).getD k zero_block i)
        = u16 ((s.m_sample_value_to_send : Int) + 512 * (k : Int) + (i : Int) + 1) := by
  induction n with
  | zero => intro s _ k i hk; omega
  | succ n ih =>
    intro s hs k i hk hi
    have hst := prepare_tx_loop_state I2S_DATA_BLOCK_WORDS 0 s zero_block (by decide)
    rcases Nat.eq_zero_or_pos k with hk0 | hkpos
    · subst hk0
      simp only [generated_blocks, List.getD_cons_zero]
      rw [prepare_tx_data_of_no_reinit s zero_block hs]
      have := prepare_tx_loop_pairs s zero_block i hi
      simp only [Nat.cast_zero, mul_zero, add_zero]
      exact this
    · obtain ⟨k, rfl⟩ : ∃ k', k = k' + 1 := ⟨k - 1, by omega⟩
      simp only [generated_blocks, List.getD_cons_succ]
      rw [prepare_tx_data_of_no_reinit s zero_block hs, hst]
      have := ih
        { s with
          m_sample_value_to_send :=
            u16 ((s.m_sample_value_to_send : Int) + (I2S_DATA_BLOCK_WORDS : Nat)) }
        hs k i (by omega) hi
      rw [this.1, this.2]
      simp only [u16, I2S_DATA_BLOCK_WORDS]
      push_cast
      constructor <;> omega

/-- The blocks of a session, whose first generator call re-initialises, carry
the sequence that starts at the seed 0xCAFE. -/
theorem generated_blocks_from_seed (n : Nat) (s : State)
    (hs : s.m_blocks_transferred = 0 ∧ s.m_zero_samples_to_ignore = 0)
    (k i : Nat) (hk : k < n) (hi : i < I2S_DATA_BLOCK_WORDS) :
    load_half0 ((generated_blocks n s).getD k zero_block i)
        = u16 (0xCAFE + 512 * (k : Int) + (i : Int) - 1)
    ∧ load_half1 ((generated_blocks n s).getD k zero_block i)
        = u16 (0xCAFE + 512 * (k : Int) + (i : Int) + 1) := by
  obtain ⟨n, rfl⟩ : ∃ n', n = n' + 1 := ⟨n - 1, by omega⟩
  have hst := prepare_tx_loop_state I2S_DATA_BLOCK_WORDS 0
    { s with
      m_zero_samples_to_ignore := 2
      m_sample_value_to_send := 0xCAFE
      m_sample_value_expected := 0xCAFE
      m_error_encountered := false } zero_block (by decide)
  rcases Nat.eq_zero_or_pos k with hk0 | hkpos
  · subst hk0
    simp only [generated_blocks, List.getD_cons_zero]
    rw [prepare_tx_data_of_reinit s zero_block hs]
    have := prepare_tx_loop_pairs
      { s with
        m_zero_samples_to_ignore := 2
        m_sample_value_to_send := 0xCAFE
        m_sample_value_expected := 0xCAFE
        m_error_encountered := false } zero_block i hi
    simp only [Nat.cast_zero, mul_zero, add_zero]
    exact this
  · obtain ⟨k, rfl⟩ : ∃ k', k = k' + 1 := ⟨k - 1, by omega⟩
    simp only [generated_blocks, List.getD_cons_succ]
    rw [prepare_tx_data_of_reinit s zero_block hs, hst]
    have := generated_blocks_pairs n
      { s with
        m_zero_samples_to_ignore := 2
        m_sample_value_to_send := u16 (((0xCAFE : Nat) : Int) + (I2S_DATA_BLOCK_WORDS : Nat))
        m_sample_value_expected := 0xCAFE
        m_error_encountered := false }
      (by simp) k i (by omega) hi
    rw [this.1, this.2]
    simp only [u16, I2S_DATA_BLOCK_WORDS]
    push_cast
    constructor <;> omega

/-- Word `m` of the generator's stream holds the pair of the value
`0xCAFE + m`. -/
theorem generated_stream_pairs (n : Nat) (s : State)
    (hs : s.m_blocks_transferred = 0 ∧ s.m_zero_samples_to_ignore = 0)
    (m : Nat) (hm : m < I2S_DATA_BLOCK_WORDS * n) :
    load_half0 (generated_stream (generated_blocks n s) m) = u16 (0xCAFE + (m : Int) - 1)
    ∧ load_half1 (generated_stream (generated_blocks n s) m) = u16 (0xCAFE + (m : Int) + 1) := by
  unfold I2S_DATA_BLOCK_WORDS at hm
  have h := generated_blocks_from_seed n s hs (m / 512) (m % 512) (by omega)
    (Nat.mod_lt _ (by decide))
  unfold generated_stream
  simp only [I2S_DATA_BLOCK_WORDS] at h ⊢
  rw [h.1, h.2]
  constructor
  · congr 1
    omega
  · congr 1
    omega

/-- The first block of a delayed loopback: from skip counter 2, `d <= 2`
leading zero pairs are absorbed and the remaining `512 - d` pairs match. -/
theorem check_samples_delayed_first (s : State) (p_block : Block) (d : Nat) (E : Int)
    (hd : d ≤ 2) (hz : s.m_zero_samples_to_ignore = 2)
    (hE : (s.m_sample_value_expected : Int) % 65536 = E % 65536)
    (hzero : ∀ i, i < d → load_half0 (p_block i) = 0 ∧ load_half1 (p_block i) = 0)
    (hb : ∀ k, d + k < I2S_DATA_BLOCK_WORDS →
      load_half0 (p_block (d + k)) = u16 (E + (k : Int) - 1)
      ∧ load_half1 (p_block (d + k)) = u16 (E + (k : Int) + 1)) :
    check_samples s p_block =
      (true, { s with
          m_zero_samples_to_ignore := 0
          m_sample_value_expected := u16 (E + (((I2S_DATA_BLOCK_WORDS - d : Nat)) : Int)) }) := by
  unfold I2S_DATA_BLOCK_WORDS at hb ⊢
  interval_cases d
  · exact check_samples_loop_all_match 512 0 s p_block E hE
      (fun k hk => hb k (by omega)) (by omega)
  · show check_samples_loop (511 + 1) 0 s p_block = _
    rw [check_samples_loop_absorb _ 0 s p_block (by omega) (hzero 0 (by omega)).1
      (hzero 0 (by omega)).2]
    refine Eq.trans (check_samples_loop_all_match 511 (0 + 1) _ p_block E hE
      (fun k hk => by
        have := hb k (by omega)
        have e : 0 + 1 + k = 1 + k := by omega
        rw [e]
        exact this) (by omega)) ?_
    rfl
  · show check_samples_loop (510 + 1 + 1) 0 s p_block = _
    rw [check_samples_loop_absorb _ 0 s p_block (by omega) (hzero 0 (by omega)).1
      (hzero 0 (by omega)).2]
    rw [check_samples_loop_absorb 510 (0 + 1) _ p_block (by simp [hz, u8])
      (hzero 1 (by omega)).1 (hzero 1 (by omega)).2]
    refine Eq.trans (check_samples_loop_all_match 510 (0 + 1 + 1) _ p_block E hE
      (fun k hk => by
        have := hb k (by omega)
        have e : 0 + 1 + 1 + k = 2 + k := by omega
        rw [e]
        exact this) (by omega)) ?_
    rfl

/-- The pairs of the received blocks of a loopback delayed by `d` pairs. -/
theorem received_block_pairs (n : Nat) (s0 : State)
    (hs0 : s0.m_blocks_transferred = 0 ∧ s0.m_zero_samples_to_ignore = 0)
    (d j i : Nat) (hd : d ≤ 2) (hj : j < n) (hi : i < I2S_DATA_BLOCK_WORDS) :
    (I2S_DATA_BLOCK_WORDS * j + i < d →
      load_half0 (received_block d (generated_blocks n s0) j i) = 0
      ∧ load_half1 (received_block d (generated_blocks n s0) j i) = 0)
    ∧ (¬ I2S_DATA_BLOCK_WORDS * j + i < d →
      load_half0 (received_block d (generated_blocks n s0) j i)
        = u16 (0xCAFE + 512 * (j : Int) + (i : Int) - (d : Int) - 1)
      ∧ load_half1 (received_block d (generated_blocks n s0) j i)
        = u16 (0xCAFE + 512 * (j : Int) + (i : Int) - (d : Int) + 1)) := by
  constructor
  · intro h
    unfold received_block
    rw [if_pos h]
    exact ⟨rfl, rfl⟩
  · intro h
    unfold received_block
    rw [if_neg h]
    unfold I2S_DATA_BLOCK_WORDS at h hi ⊢
    have hp := generated_stream_pairs n s0 hs0 (512 * j + i - d)
      (by unfold I2S_DATA_BLOCK_WORDS; omega)
    rw [hp.1, hp.2]
    have e : ((512 * j + i - d : Nat) : Int) = 512 * (j : Int) + (i : Int) - (d : Int) := by
      omega
    rw [e]
    constructor
    · congr 1
      ring
    · congr 1
      ring

/-- The validator state after `k` received blocks of a delayed loopback: the
error flag is still false, and once a block has been checked the skip counter is
0 and the expected counter has advanced over all compared pairs. -/
theorem loopback_invariant (n : Nat) (s0 v : State) (d : Nat) (hd : d ≤ 2)
    (hs0 : s0.m_blocks_transferred = 0 ∧ s0.m_zero_samples_to_ignore = 0)
    (hv : v.m_zero_samples_to_ignore = 2 ∧ v.m_sample_value_expected = 0xCAFE
      ∧ v.m_error_encountered = false) :
    ∀ k, k ≤ n →
    ((received_blocks d (generated_blocks n s0) k).foldl check_rx_data v).m_error_encountered
        = false
    ∧ (k = 0 → (received_blocks d (generated_blocks n s0) k).foldl check_rx_data v = v)
    ∧ (0 < k →
        ((received_blocks d (generated_blocks n s0) k).foldl check_rx_data v).m_zero_samples_to_ignore
          = 0
        ∧ (((received_blocks d (generated_blocks n s0) k).foldl check_rx_data
              v).m_sample_value_expected : Int) % 65536
            = (0xCAFE + 512 * (k : Int) - (d : Int)) % 65536) := by
  intro k
  induction k with
  | zero =>
    intro _
    exact ⟨hv.2.2, fun _ => rfl, fun h => by omega⟩
  | succ k ih =>
    intro hk
    obtain ⟨herr, h0, hpos⟩ := ih (by omega)
    have hfold : (received_blocks d (generated_blocks n s0) (k + 1)).foldl check_rx_data v
        = check_rx_data ((received_blocks d (generated_blocks n s0) k).foldl check_rx_data v)
            (received_block d (generated_blocks n s0) k) := by
      unfold received_blocks
      rw [List.range_succ, List.map_append, List.foldl_append]
      rfl
    rw [hfold, check_rx_data_of_no_error _ _ herr]
    have hpairs := fun i hi => received_block_pairs n s0 hs0 d k i hd (by omega) hi
    rcases Nat.eq_zero_or_pos k with hk0 | hkpos
    · subst hk0
      rw [h0 rfl]
      have hfirst := check_samples_delayed_first
        { v with m_blocks_transferred := u8 ((v.m_blocks_transferred : Int) + 1) }
        (received_block d (generated_blocks n s0) 0) d 0xCAFE hd hv.1
        (by
          show ((v.m_sample_value_expected : Nat) : Int) % 65536 = _
          rw [hv.2.1]
          rfl)
        (fun i hi => (hpairs i (by unfold I2S_DATA_BLOCK_WORDS; omega)).1
          (by unfold I2S_DATA_BLOCK_WORDS; omega))
        (fun m hm => by
          have := (hpairs (d + m) hm).2 (by unfold I2S_DATA_BLOCK_WORDS; omega)
          rw [this.1, this.2]
          simp only [u16]
          push_cast
          constructor <;> omega)
      rw [hfirst]
      refine ⟨rfl, fun h => by omega, fun _ => ⟨rfl, ?_⟩⟩
      simp only [u16, I2S_DATA_BLOCK_WORDS]
      push_cast
      omega
    · obtain ⟨hskip, hexp⟩ := hpos hkpos
      have hrest := check_samples_loop_all_match I2S_DATA_BLOCK_WORDS 0
        { ((received_blocks d (generated_blocks n s0) k).foldl check_rx_data v) with
          m_blocks_transferred :=
            u8 ((((received_blocks d (generated_blocks n s0) k).foldl check_rx_data
              v).m_blocks_transferred : Int) + 1) }
        (received_block d (generated_blocks n s0) k)
        (0xCAFE + 512 * (k : Int) - (d : Int)) hexp
        (fun i hi => by
          have := (hpairs i hi).2 (by unfold I2S_DATA_BLOCK_WORDS; omega)
          rw [Nat.zero_add, this.1, this.2]
          simp only [u16]
          constructor <;> omega)
        (by decide)
      have hcs : check_samples
          { ((received_blocks d (generated_blocks n s0) k).foldl check_rx_data v) with
            m_blocks_transferred :=
              u8 ((((received_blocks d (generated_blocks n s0) k).foldl check_rx_data
                v).m_blocks_transferred : Int) + 1) }
          (received_block d (generated_blocks n s0) k) = _ := hrest
      rw [hcs]
      refine ⟨rfl, fun h => by omega, fun _ => ⟨rfl, ?_⟩⟩
      simp only [u16, I2S_DATA_BLOCK_WORDS]
      push_cast
      omega

/-- C18: loopback soundness of generator and validator.  Let the generator run
from the start of a session (block counter and skip counter 0, so that its
first call re-initialises to the seed 0xCAFE and no later call does), and let
the received stream be `d <= 2` all-zero pairs followed by the generated
stream, cut into 512-word blocks.  Then `check_rx_data` applied in order to the
first `k <= n` received blocks, from any fresh validator state (skip counter 2,
expected counter 0xCAFE, flag false), leaves `m_error_encountered` false, for
every `n`, so also when the 16-bit counters wrap; the generated pairs are
`((0xCAFE + m - 1) mod 2^16, (0xCAFE + m + 1) mod 2^16)` and none is `(0, 0)`. -/
theorem loopback_never_sets_error (s0 v : State) (d n k : Nat)
    (hd : d ≤ 2) (hk : k ≤ n)
    (hs0 : s0.m_blocks_transferred = 0 ∧ s0.m_zero_samples_to_ignore = 0)
    (hv : v.m_zero_samples_to_ignore = 2 ∧ v.m_sample_value_expected = 0xCAFE
      ∧ v.m_error_encountered = false) :
    ((received_blocks d (generated_blocks n s0) k).foldl check_rx_data v).m_error_encountered
        = false
    ∧ (∀ m, m < I2S_DATA_BLOCK_WORDS * n →
        (load_half0 (generated_stream (generated_blocks n s0) m) : Int)
            = (0xCAFE + (m : Int) - 1) % 65536
        ∧ (load_half1 (generated_stream (generated_blocks n s0) m) : Int)
            = (0xCAFE + (m : Int) + 1) % 65536
        ∧ ¬ (load_half0 (generated_stream (generated_blocks n s0) m) = 0
            ∧ load_half1 (generated_stream (generated_blocks n s0) m) = 0))
    ∧ ((prepare_tx_data s0 zero_block).1.m_zero_samples_to_ignore = 2
        ∧ (prepare_tx_data s0 zero_block).1.m_sample_value_expected = 0xCAFE
        ∧ (prepare_tx_data s0 zero_block).1.m_error_encountered = false) := by
  refine ⟨(loopback_invariant n s0 v d hd hs0 hv k hk).1, ?_, ?_⟩
  · intro m hm
    have hp := generated_stream_pairs n s0 hs0 m hm
    refine ⟨?_, ?_, ?_⟩
    · rw [hp.1]
      simp only [u16]
      omega
    · rw [hp.2]
      simp only [u16]
      omega
    · rw [hp.1, hp.2]
      have := expected_pair_ne_zero (0xCAFE + (m : Int))
      exact this
  · rw [prepare_tx_data_of_reinit s0 zero_block hs0,
      prepare_tx_loop_state I2S_DATA_BLOCK_WORDS 0 _ zero_block (by decide)]
    exact ⟨rfl, rfl, rfl⟩

/-- C18, at a concrete input: 200 blocks (the counters wrap several times)
received two pairs late. -/
theorem loopback_never_sets_error_witness :
    ((received_blocks 2 (generated_blocks 200 power_up_state) 200).foldl check_rx_data
        fresh_state).m_error_encountered = false :=
  (loopback_never_sets_error power_up_state fresh_state 2 200 200 (by decide) (by decide)
    ⟨rfl, rfl⟩ ⟨rfl, rfl, rfl⟩).1

/-! ## Helper lemmas: the transfer session -/

/-- The handler returns when the driver accepts the submission, and it leaves
the counters and the flag alone. -/
theorem i2s_data_handler_counters (d : Driver) (released : nrf_drv_i2s_buffers_t)
    (status : Nat) (s : State)
    (hd : ∀ b, d.nrf_drv_i2s_next_buffers_set b = NRF_SUCCESS) :
    ∃ s1, i2s_data_handler d (some released) status s = some s1
      ∧ s1.m_blocks_transferred = s.m_blocks_transferred
      ∧ s1.m_zero_samples_to_ignore = s.m_zero_samples_to_ignore
      ∧ s1.m_error_encountered = s.m_error_encountered := by
  unfold i2s_data_handler
  by_cases h1 : status &&& d.NRFX_I2S_STATUS_NEXT_BUFFERS_NEEDED = 0
  · exact ⟨s, by simp only [if_pos h1], rfl, rfl, rfl⟩
  · by_cases h2 : released.p_rx_buffer = NULL
    · simp only [if_neg h1, if_pos h2, hd, ne_eq, not_true_eq_false, if_false]
      exact ⟨_, rfl, rfl, rfl, rfl⟩
    · simp only [if_neg h1, if_neg h2, hd, ne_eq, not_true_eq_false, if_false]
      exact ⟨_, rfl, rfl, rfl, rfl⟩

theorem run_notifications_counters (d : Driver)
    (hd : ∀ b, d.nrf_drv_i2s_next_buffers_set b = NRF_SUCCESS)
    (ns : List (nrf_drv_i2s_buffers_t × Nat)) :
    ∀ s : State, ∃ s1, run_notifications d ns s = some s1
      ∧ s1.m_blocks_transferred = s.m_blocks_transferred
      ∧ s1.m_zero_samples_to_ignore = s.m_zero_samples_to_ignore
      ∧ s1.m_error_encountered = s.m_error_encountered := by
  induction ns with
  | nil => intro s; exact ⟨s, rfl, rfl, rfl, rfl⟩
  | cons x rest ih =>
    intro s
    obtain ⟨released, status⟩ := x
    obtain ⟨s1, h1, a1, b1, c1⟩ := i2s_data_handler_counters d released status s hd
    obtain ⟨s2, h2, a2, b2, c2⟩ := ih s1
    refine ⟨s2, ?_, by rw [a2, a1], by rw [b2, b1], by rw [c2, c1]⟩
    simp only [run_notifications]
    rw [h1]
    exact h2

theorem in_session_congr (s s1 : State)
    (h1 : s1.m_blocks_transferred = s.m_blocks_transferred)
    (h2 : s1.m_zero_samples_to_ignore = s.m_zero_samples_to_ignore)
    (h3 : s1.m_error_encountered = s.m_error_encountered)
    (h : in_session s) : in_session s1 := by
  unfold in_session at h ⊢
  rw [h1, h2, h3]
  exact h

theorem interrupts_counters (d : Driver)
    (hd : ∀ b, d.nrf_drv_i2s_next_buffers_set b = NRF_SUCCESS)
    (ns : List (nrf_drv_i2s_buffers_t × Nat)) (t : Transfer) :
    ∃ t1, interrupts d ns t = some t1
      ∧ t1.reinit_log = t.reinit_log
      ∧ t1.s.m_blocks_transferred = t.s.m_blocks_transferred
      ∧ t1.s.m_zero_samples_to_ignore = t.s.m_zero_samples_to_ignore
      ∧ t1.s.m_error_encountered = t.s.m_error_encountered := by
  obtain ⟨s1, h1, a1, b1, c1⟩ := run_notifications_counters d hd ns t.s
  refine ⟨{ t with s := s1 }, ?_, rfl, a1, b1, c1⟩
  unfold interrupts
  rw [h1]
  rfl

/-- The validator loop leaves the block counter alone. -/
theorem check_samples_loop_blocks (n : Nat) : ∀ (i : Nat) (s : State) (p_block : Block),
    (check_samples_loop n i s p_block).2.m_blocks_transferred = s.m_blocks_transferred := by
  induction n with
  | zero => intro i s p_block; rfl
  | succ n ih =>
    intro i s p_block
    by_cases habs : 0 < s.m_zero_samples_to_ignore ∧ load_half0 (p_block i) = 0
        ∧ load_half1 (p_block i) = 0
    · rw [check_samples_loop_absorb n i s p_block habs.1 habs.2.1 habs.2.2, ih]
    · by_cases hm : load_half0 (p_block i) = u16 ((s.m_sample_value_expected : Int) - 1)
          ∧ load_half1 (p_block i) = u16 ((s.m_sample_value_expected : Int) + 1)
      · rw [check_samples_loop_match n i s p_block habs hm.1 hm.2, ih]
      · rw [check_samples_loop_mismatch n i s p_block habs (by
          by_contra hcon
          apply hm
          constructor
          · by_contra h1
            exact hcon (Or.inl h1)
          · by_contra h2
            exact hcon (Or.inr h2))]

/-- A run of more pairs than the skip counter allows to absorb ends with the
skip counter at 0. -/
theorem check_samples_loop_skip_zero (n : Nat) : ∀ (i : Nat) (s : State) (p_block : Block),
    s.m_zero_samples_to_ignore < n →
    (check_samples_loop n i s p_block).2.m_zero_samples_to_ignore = 0 := by
  induction n with
  | zero => intro i s p_block h; omega
  | succ n ih =>
    intro i s p_block h
    by_cases habs : 0 < s.m_zero_samples_to_ignore ∧ load_half0 (p_block i) = 0
        ∧ load_half1 (p_block i) = 0
    · rw [check_samples_loop_absorb n i s p_block habs.1 habs.2.1 habs.2.2]
      apply ih
      show u8 ((s.m_zero_samples_to_ignore : Int) - 1) < n
      unfold u8
      omega
    · by_cases hm : load_half0 (p_block i) = u16 ((s.m_sample_value_expected : Int) - 1)
          ∧ load_half1 (p_block i) = u16 ((s.m_sample_value_expected : Int) + 1)
      · rw [check_samples_loop_match n i s p_block habs hm.1 hm.2]
        rcases Nat.eq_zero_or_pos n with h0 | hpos
        · subst h0
          rfl
        · exact ih (i + 1) _ p_block hpos
      · rw [check_samples_loop_mismatch n i s p_block habs (by
          by_contra hcon
          apply hm
          constructor
          · by_contra h1
            exact hcon (Or.inl h1)
          · by_contra h2
            exact hcon (Or.inr h2))]

/-- A `check_rx_data` call inside a session keeps the session invariant and
counts the block. -/
theorem check_rx_data_in_session (s : State) (p_block : Block)
    (h : in_session s) (hlt : s.m_blocks_transferred < BLOCKS_TO_TRANSFER) :
    in_session (check_rx_data s p_block)
    ∧ 1 ≤ (check_rx_data s p_block).m_blocks_transferred := by
  unfold BLOCKS_TO_TRANSFER at hlt
  have hb : u8 ((s.m_blocks_transferred : Int) + 1) = s.m_blocks_transferred + 1 := by
    unfold u8
    omega
  have hskip : s.m_zero_samples_to_ignore < I2S_DATA_BLOCK_WORDS := by
    unfold in_session at h
    unfold I2S_DATA_BLOCK_WORDS
    omega
  have hB : 1 ≤ (check_rx_data s p_block).m_blocks_transferred
      ∧ (check_rx_data s p_block).m_blocks_transferred ≤ BLOCKS_TO_TRANSFER
      ∧ (check_rx_data s p_block).m_zero_samples_to_ignore = 0 := by
    cases herr : s.m_error_encountered with
    | true =>
      rw [check_rx_data_of_error s p_block herr]
      unfold in_session at h
      rw [herr] at h
      unfold BLOCKS_TO_TRANSFER at h ⊢
      simp only [hb]
      refine ⟨by omega, by omega, ?_⟩
      rcases h with h | h
      · exact absurd h.2.2 (by decide)
      · exact h.2.2
    | false =>
      rw [check_rx_data_of_no_error s p_block herr]
      have e1 := check_samples_loop_blocks I2S_DATA_BLOCK_WORDS 0
        { s with m_blocks_transferred := u8 ((s.m_blocks_transferred : Int) + 1) } p_block
      have e2 := check_samples_loop_skip_zero I2S_DATA_BLOCK_WORDS 0
        { s with m_blocks_transferred := u8 ((s.m_blocks_transferred : Int) + 1) } p_block hskip
      unfold BLOCKS_TO_TRANSFER
      refine ⟨?_, ?_, e2⟩
      · show 1 ≤ (check_samples _ p_block).2.m_blocks_transferred
        unfold check_samples
        rw [e1]
        simp only [hb]
        omega
      · show (check_samples _ p_block).2.m_blocks_transferred ≤ 20
        unfold check_samples
        rw [e1]
        simp only [hb]
        omega
  exact ⟨Or.inr hB, hB.1⟩

/-- A `prepare_tx_data` call inside a session does not re-initialise and leaves
the session invariant. -/
theorem call_prepare_tx_data_in_session (p : Nat) (t : Transfer) (h : in_session t.s) :
    (call_prepare_tx_data p t).reinit_log = t.reinit_log ++ [false]
    ∧ (call_prepare_tx_data p t).s.m_blocks_transferred = t.s.m_blocks_transferred
    ∧ (call_prepare_tx_data p t).s.m_zero_samples_to_ignore = t.s.m_zero_samples_to_ignore
    ∧ (call_prepare_tx_data p t).s.m_error_encountered = t.s.m_error_encountered := by
  have hno : ¬ (t.s.m_blocks_transferred = 0 ∧ t.s.m_zero_samples_to_ignore = 0) := by
    unfold in_session at h
    omega
  have hst := prepare_tx_loop_state I2S_DATA_BLOCK_WORDS 0 t.s (t.tx_blocks p) (by decide)
  unfold call_prepare_tx_data
  simp only [prepare_tx_data_of_no_reinit t.s _ hno, hst, decide_eq_false hno]
  exact ⟨trivial, trivial, trivial, trivial⟩

/-- Lines 238-242 inside a session: at most one generator call, which does not
re-initialise. -/
theorem fill_step_in_session (d : Driver)
    (hd : ∀ b, d.nrf_drv_i2s_next_buffers_set b = NRF_SUCCESS)
    (w : Wakeup) (t : Transfer) (h : in_session t.s) :
    ∃ t1 l, fill_step d w t = some t1
      ∧ t1.reinit_log = t.reinit_log ++ l ∧ (∀ x ∈ l, x = false)
      ∧ in_session t1.s
      ∧ t1.s.m_blocks_transferred = t.s.m_blocks_transferred := by
  unfold fill_step
  by_cases hp : t.s.mp_block_to_fill ≠ NULL
  · rw [if_pos hp]
    obtain ⟨c1, c2, c3, c4⟩ := call_prepare_tx_data_in_session t.s.mp_block_to_fill t h
    obtain ⟨t1, h1, l1, a1, b1, e1⟩ := interrupts_counters d hd w.during_fill
      (call_prepare_tx_data t.s.mp_block_to_fill t)
    rw [h1]
    refine ⟨_, [false], rfl, ?_, ?_, ?_, ?_⟩
    · show t1.reinit_log = _
      rw [l1, c1]
    · intro x hx
      simpa using hx
    · apply in_session_congr t.s _ _ _ _ h
      · show t1.s.m_blocks_transferred = _
        rw [a1, c2]
      · show t1.s.m_zero_samples_to_ignore = _
        rw [b1, c3]
      · show t1.s.m_error_encountered = _
        rw [e1, c4]
    · show t1.s.m_blocks_transferred = _
      rw [a1, c2]
  · rw [if_neg hp]
    exact ⟨t, [], rfl, by simp, by simp, h, rfl⟩

/-- Lines 243-247 inside a session. -/
theorem check_step_in_session (d : Driver)
    (hd : ∀ b, d.nrf_drv_i2s_next_buffers_set b = NRF_SUCCESS)
    (w : Wakeup) (t : Transfer) (h : in_session t.s)
    (hlt : t.s.m_blocks_transferred < BLOCKS_TO_TRANSFER) :
    ∃ t1, check_step d w t = some t1
      ∧ t1.reinit_log = t.reinit_log
      ∧ in_session t1.s := by
  unfold check_step
  by_cases hp : t.s.mp_block_to_check ≠ NULL
  · rw [if_pos hp]
    obtain ⟨c1, _⟩ := check_rx_data_in_session t.s w.rx h hlt
    obtain ⟨t1, h1, l1, a1, b1, e1⟩ := interrupts_counters d hd w.during_check
      { t with s := check_rx_data t.s w.rx }
    rw [h1]
    refine ⟨_, rfl, ?_, ?_⟩
    · show t1.reinit_log = _
      rw [l1]
    · exact in_session_congr (check_rx_data t.s w.rx) _ a1 b1 e1 c1
  · rw [if_neg hp]
    exact ⟨t, rfl, rfl, h⟩

/-- One pass of the loop inside a session. -/
theorem loop_body_in_session (d : Driver)
    (hd : ∀ b, d.nrf_drv_i2s_next_buffers_set b = NRF_SUCCESS)
    (w : Wakeup) (t : Transfer) (h : in_session t.s)
    (hlt : t.s.m_blocks_transferred < BLOCKS_TO_TRANSFER) :
    ∃ t1 l, loop_body d w t = some t1
      ∧ t1.reinit_log = t.reinit_log ++ l ∧ (∀ x ∈ l, x = false)
      ∧ in_session t1.s := by
  obtain ⟨t1, h1, l1, a1, b1, e1⟩ := interrupts_counters d hd w.before_fill t
  obtain ⟨t2, l, h2, l2, hl, i2, a2⟩ := fill_step_in_session d hd w t1
    (in_session_congr t.s t1.s a1 b1 e1 h)
  obtain ⟨t3, h3, l3, a3, b3, e3⟩ := interrupts_counters d hd w.before_check t2
  obtain ⟨t4, h4, l4, i4⟩ := check_step_in_session d hd w t3
    (in_session_congr t2.s t3.s a3 b3 e3 i2) (by rw [a3, a2, a1]; exact hlt)
  refine ⟨t4, l, ?_, ?_, hl, i4⟩
  · unfold loop_body
    rw [h1, Option.some_bind, h2, Option.some_bind, h3, Option.some_bind, h4]
  · rw [l4, l3, l2, l1]

/-- The loop inside a session: it never re-initialises, and when it ends the
skip counter is 0. -/
theorem transfer_loop_in_session (d : Driver)
    (hd : ∀ b, d.nrf_drv_i2s_next_buffers_set b = NRF_SUCCESS)
    (ws : List Wakeup) :
    ∀ t : Transfer, in_session t.s → t.s.m_blocks_transferred < BLOCKS_TO_TRANSFER →
    ∃ t1 done l, transfer_loop d ws t = some (t1, done)
      ∧ t1.reinit_log = t.reinit_log ++ l ∧ (∀ x ∈ l, x = false)
      ∧ (done = true → t1.s.m_zero_samples_to_ignore = 0
          ∧ t1.s.m_blocks_transferred = BLOCKS_TO_TRANSFER) := by
  induction ws with
  | nil =>
    intro t _ _
    exact ⟨t, false, [], rfl, by simp, by simp, by simp⟩
  | cons w rest ih =>
    intro t h hlt
    obtain ⟨t1, l, h1, l1, hl, i1⟩ := loop_body_in_session d hd w t h hlt
    simp only [transfer_loop]
    rw [h1]
    by_cases hc : t1.s.m_blocks_transferred < BLOCKS_TO_TRANSFER
    · obtain ⟨t2, done, l', h2, l2, hl', hdone⟩ := ih t1 i1 hc
      refine ⟨t2, done, l ++ l', ?_, ?_, ?_, hdone⟩
      · simp only [if_pos hc]
        exact h2
      · rw [l2, l1, List.append_assoc]
      · intro x hx
        rcases List.mem_append.mp hx with hx | hx
        · exact hl x hx
        · exact hl' x hx
    · refine ⟨t1, true, l, ?_, l1, hl, ?_⟩
      · simp only [if_neg hc]
      · intro _
        unfold in_session at i1
        unfold BLOCKS_TO_TRANSFER at hc i1 ⊢
        omega

/-- The first generator call of a session that starts with the skip counter at
0: it re-initialises. -/
theorem session_first_call (d : Driver) (t : Transfer)
    (hskip : t.s.m_zero_samples_to_ignore = 0) :
    i2s_transfer d NRF_SUCCESS [] t
      = some (call_prepare_tx_data (d.m_buffer_tx 0)
          { t with s := { t.s with
              m_blocks_transferred := 0
              mp_block_to_fill := NULL
              mp_block_to_check := NULL } }, false)
    ∧ (call_prepare_tx_data (d.m_buffer_tx 0)
          { t with s := { t.s with
              m_blocks_transferred := 0
              mp_block_to_fill := NULL
              mp_block_to_check := NULL } }).reinit_log = t.reinit_log ++ [true]
    ∧ (call_prepare_tx_data (d.m_buffer_tx 0)
          { t with s := { t.s with
              m_blocks_transferred := 0
              mp_block_to_fill := NULL
              mp_block_to_check := NULL } }).s
        = { t.s with
            m_blocks_transferred := 0
            m_zero_samples_to_ignore := 2
            m_sample_value_to_send := u16 (((0xCAFE : Nat) : Int) + (I2S_DATA_BLOCK_WORDS : Nat))
            m_sample_value_expected := 0xCAFE
            m_error_encountered := false
            mp_block_to_fill := NULL
            mp_block_to_check := NULL }
    ∧ (∀ i, i < I2S_DATA_BLOCK_WORDS →
        load_half0 ((call_prepare_tx_data (d.m_buffer_tx 0)
          { t with s := { t.s with
              m_blocks_transferred := 0
              mp_block_to_fill := NULL
              mp_block_to_check := NULL } }).tx_blocks (d.m_buffer_tx 0) i)
          = u16 (0xCAFE + (i : Int) - 1)
        ∧ load_half1 ((call_prepare_tx_data (d.m_buffer_tx 0)
          { t with s := { t.s with
              m_blocks_transferred := 0
              mp_block_to_fill := NULL
              mp_block_to_check := NULL } }).tx_blocks (d.m_buffer_tx 0) i)
          = u16 (0xCAFE + (i : Int) + 1)) := by
  have hre : ({ t.s with
      m_blocks_transferred := 0
      mp_block_to_fill := NULL
      mp_block_to_check := NULL } : State).m_blocks_transferred = 0
    ∧ ({ t.s with
      m_blocks_transferred := 0
      mp_block_to_fill := NULL
      mp_block_to_check := NULL } : State).m_zero_samples_to_ignore = 0 := ⟨rfl, hskip⟩
  refine ⟨?_, ?_, ?_, ?_⟩
  · unfold i2s_transfer
    simp only [ne_eq, not_true_eq_false, if_false, transfer_loop]
  · simp [call_prepare_tx_data, hskip]
  · unfold call_prepare_tx_data
    simp only
    rw [prepare_tx_data_of_reinit _ _ hre, prepare_tx_loop_state _ _ _ _ (by decide)]
  · intro i hi
    unfold call_prepare_tx_data
    simp only [Function.update_same]
    rw [prepare_tx_data_of_reinit _ _ hre]
    exact prepare_tx_loop_pairs _ _ i hi

/-- A whole session that starts with the skip counter at 0: the first generator
call re-initialises, no later one does, and when the session completes the skip
counter is 0 again. -/
theorem session_reinit_log (d : Driver)
    (hd : ∀ b, d.nrf_drv_i2s_next_buffers_set b = NRF_SUCCESS)
    (ws : List Wakeup) (t : Transfer) (hskip : t.s.m_zero_samples_to_ignore = 0) :
    ∃ t1 done l, i2s_transfer d NRF_SUCCESS ws t = some (t1, done)
      ∧ t1.reinit_log = t.reinit_log ++ true :: l ∧ (∀ x ∈ l, x = false)
      ∧ (done = true → t1.s.m_zero_samples_to_ignore = 0
          ∧ t1.s.m_blocks_transferred = BLOCKS_TO_TRANSFER) := by
  obtain ⟨_, hlog, hstate, _⟩ := session_first_call d t hskip
  have hin : in_session (call_prepare_tx_data (d.m_buffer_tx 0)
      { t with s := { t.s with
          m_blocks_transferred := 0
          mp_block_to_fill := NULL
          mp_block_to_check := NULL } }).s := by
    rw [hstate]
    exact Or.inl ⟨rfl, rfl, rfl⟩
  have hlt : (call_prepare_tx_data (d.m_buffer_tx 0)
      { t with s := { t.s with
          m_blocks_transferred := 0
          mp_block_to_fill := NULL
          mp_block_to_check := NULL } }).s.m_blocks_transferred < BLOCKS_TO_TRANSFER := by
    rw [hstate]
    show (0 : Nat) < 20
    omega
  obtain ⟨t1, done, l, h1, l1, hl, hdone⟩ := transfer_loop_in_session d hd ws _ hin hlt
  refine ⟨t1, done, l, ?_, ?_, hl, hdone⟩
  · unfold i2s_transfer
    simp only [ne_eq, not_true_eq_false, if_false]
    exact h1
  · rw [l1, hlog, List.append_assoc]
    rfl

set_option maxRecDepth 100000 in
/-- The sample session of twenty released pairs ends the loop. -/
theorem sample_session_completes :
    (i2s_transfer sample_driver NRF_SUCCESS (sample_session 20) power_up).map (fun r => r.2)
      = some true := by
  decide

/-! ## The session claim -/

/-- C15: the generator re-initialises on exactly the first block of every
transfer session.  Take a run of `i2s_transfer` that starts with the skip
counter at 0, as at power-up, with a driver that accepts every submission.  Its
first `prepare_tx_data` call (on `m_buffer_tx[0]`, right after
`m_blocks_transferred` is zeroed) sets the send and expected counters to the
seed 0xCAFE, the skip counter to 2 and the flag to false before it writes the
first sample, so that the block holds the pairs of 0xCAFE, 0xCAFE + 1, ...;
whatever notifications and received blocks follow, no later `prepare_tx_data`
call of the session re-initialises; and when the session completes the skip
counter is 0 again, so the next session starts in the same way. -/
theorem generator_reinitialises_once_per_session (d : Driver) (ws ws2 : List Wakeup)
    (t : Transfer)
    (hd : ∀ b, d.nrf_drv_i2s_next_buffers_set b = NRF_SUCCESS)
    (hskip : t.s.m_zero_samples_to_ignore = 0) :
    (∃ t0, i2s_transfer d NRF_SUCCESS [] t = some (t0, false)
      ∧ t0.reinit_log = t.reinit_log ++ [true]
      ∧ t0.s.m_zero_samples_to_ignore = 2
      ∧ t0.s.m_sample_value_expected = 0xCAFE
      ∧ t0.s.m_error_encountered = false
      ∧ (t0.s.m_sample_value_to_send : Int) = (0xCAFE + 512) % 65536
      ∧ (∀ i, i < I2S_DATA_BLOCK_WORDS →
          (load_half0 (t0.tx_blocks (d.m_buffer_tx 0) i) : Int) = (0xCAFE + (i : Int) - 1) % 65536
          ∧ (load_half1 (t0.tx_blocks (d.m_buffer_tx 0) i) : Int)
              = (0xCAFE + (i : Int) + 1) % 65536))
    ∧ (∃ t1 done l, i2s_transfer d NRF_SUCCESS ws t = some (t1, done)
      ∧ t1.reinit_log = t.reinit_log ++ true :: l ∧ (∀ x ∈ l, x = false)
      ∧ (done = true →
          t1.s.m_zero_samples_to_ignore = 0
          ∧ t1.s.m_blocks_transferred = BLOCKS_TO_TRANSFER
          ∧ ∃ t2 done2 l2, i2s_transfer d NRF_SUCCESS ws2 t1 = some (t2, done2)
              ∧ t2.reinit_log = t1.reinit_log ++ true :: l2 ∧ (∀ x ∈ l2, x = false))) := by
  constructor
  · obtain ⟨h1, hlog, hstate, hpairs⟩ := session_first_call d t hskip
    refine ⟨_, h1, hlog, ?_, ?_, ?_, ?_, ?_⟩
    · rw [hstate]
    · rw [hstate]
    · rw [hstate]
    · rw [hstate]
      simp only [u16, I2S_DATA_BLOCK_WORDS]
      omega
    · intro i hi
      obtain ⟨p1, p2⟩ := hpairs i hi
      rw [p1, p2]
      simp only [u16]
      omega
  · obtain ⟨t1, done, l, h1, l1, hl, hdone⟩ := session_reinit_log d hd ws t hskip
    refine ⟨t1, done, l, h1, l1, hl, ?_⟩
    intro hdn
    obtain ⟨hz, hb⟩ := hdone hdn
    obtain ⟨t2, done2, l2, h2, l2', hl2, _⟩ := session_reinit_log d hd ws2 t1 hz
    exact ⟨hz, hb, t2, done2, l2, h2, l2', hl2⟩

/-- C15, at a concrete input: from power-up, a session of one first
notification and twenty released pairs, with all-zero received blocks, runs to
completion, and a second session follows. -/
theorem generator_reinitialises_once_per_session_witness :
    ∃ t1 l,
      i2s_transfer sample_driver NRF_SUCCESS (sample_session 20) power_up = some (t1, true)
      ∧ t1.reinit_log = true :: l ∧ (∀ x ∈ l, x = false)
      ∧ t1.s.m_zero_samples_to_ignore = 0
      ∧ ∃ t2 done2 l2,
          i2s_transfer sample_driver NRF_SUCCESS (sample_session 3) t1 = some (t2, done2)
          ∧ t2.reinit_log = t1.reinit_log ++ true :: l2 ∧ (∀ x ∈ l2, x = false) :=
  match (generator_reinitialises_once_per_session sample_driver (sample_session 20)
      (sample_session 3) power_up (fun _ => rfl) rfl).2 with
  | ⟨t1, done, l, h1, h2, h3, h4⟩ =>
    have hdone : done = true := by
      have h := sample_session_completes
      rw [h1] at h
      simpa using h
    ⟨t1, l, by rw [h1, hdone], h2, h3, (h4 hdone).1, (h4 hdone).2.2⟩

end I2sHelpers
